import Mathlib

/-!
Shallow embedding of the ORD MCP server core (zongqichen/ord-mcp-server):
the metadata validator (`OrdValidator` in src/utils/docFormatter.js) and the
concept explainer (src/ord-concepts.js together with the
`handleExplainConcept` handler in src/mcp-handlers.js).

JavaScript values are modelled by the mutual inductive `JVal`/`JList`/`JFields`
(mutual rather than nested so that all recursion stays structural and hence
kernel-reducible).  Machine details that no claim touches are modelled with a
documented approximation: string length counts code points (the sources only
ever measure ASCII strings), `toLower`/`trim` are ASCII case-folding and
whitespace trimming, and JS object identity for Set membership is approximated
by structural equality (the sources only ever put strings into those sets).
-/

mutual
/-- A JavaScript runtime value (undefined is distinct from null). -/
inductive JVal where
  | null
  | undef
  | bool (b : Bool)
  | num (n : Int)
  | str (s : String)
  | arr (xs : JList)
  | obj (fs : JFields)

inductive JList where
  | nil
  | cons (hd : JVal) (tl : JList)

inductive JFields where
  | nil
  | cons (k : String) (v : JVal) (tl : JFields)
end

/-- Convert a `JList` to an ordinary Lean list (for specifications). -/
def JList.toList : JList → List JVal
  | .nil => []
  | .cons x xs => x :: JList.toList xs

/-- Convert a `JFields` to an association list (for specifications). -/
def JFields.toList : JFields → List (String × JVal)
  | .nil => []
  | .cons k v fs => (k, v) :: JFields.toList fs

/-- Number of elements of a `JList` (JS `Array.prototype.length`). -/
def JList.length : JList → Nat
  | .nil => 0
  | .cons _ xs => JList.length xs + 1

/-- First binding of a key in a `JFields` (JS own-property lookup; JS objects
cannot carry the same key twice, the first binding is authoritative). -/
def JFields.lookup (fs : JFields) (k : String) : Option JVal :=
  match fs with
  | .nil => none
  | .cons k2 v tl => if k2 = k then some v else JFields.lookup tl k

/-- JS truthiness: `null`, `undefined`, `false`, `0` and `""` are falsy,
everything else (including every array and object) is truthy. -/
def truthy : JVal → Bool
  | .null => false
  | .undef => false
  | .bool b => b
  | .num n => n != 0
  | .str s => s ≠ ""
  | .arr _ => true
  | .obj _ => true

/-- `typeof v === "object" && v !== null`, the check used by
`validateStructure` and `validateLabels` (arrays count as objects). -/
def isObjectType : JVal → Bool
  | .arr _ => true
  | .obj _ => true
  | _ => false

/-- `typeof v === "string"`. -/
def isStringType : JVal → Bool
  | .str _ => true
  | _ => false

/-- `Array.isArray`. -/
def isArrayType : JVal → Bool
  | .arr _ => true
  | _ => false

mutual
/-- JS `String(v)` coercion as used by `RegExp.prototype.test` and template
literals.  Arrays join their elements with commas (null/undefined elements
become empty), plain objects print as `[object Object]`. -/
def jsToString : JVal → String
  | .null => "null"
  | .undef => "undefined"
  | .bool true => "true"
  | .bool false => "false"
  | .num n => toString n
  | .str s => s
  | .arr xs => jsListToString xs
  | .obj _ => "[object Object]"

/-- Elements of an array joined by `","` under JS array stringification. -/
def jsListToString : JList → String
  | .nil => ""
  | .cons x .nil => jsElemToString x
  | .cons x xs => jsElemToString x ++ "," ++ jsListToString xs

/-- A single array element under JS array stringification: null and undefined
render as the empty string. -/
def jsElemToString : JVal → String
  | .null => ""
  | .undef => ""
  | .bool true => "true"
  | .bool false => "false"
  | .num n => toString n
  | .str s => s
  | .arr xs => jsListToString xs
  | .obj _ => "[object Object]"
end

mutual
/-- Structural equality on JS values.  It models JS SameValueZero (used by
`Set.prototype.has` and `Array.prototype.includes`); for objects and arrays
SameValueZero is reference identity, which this embedding approximates by
structural equality — the sources only ever compare strings this way. -/
def jvalBeq : JVal → JVal → Bool
  | .null, .null => true
  | .undef, .undef => true
  | .bool a, .bool b => a == b
  | .num a, .num b => a == b
  | .str a, .str b => a == b
  | .arr a, .arr b => jlistBeq a b
  | .obj a, .obj b => jfieldsBeq a b
  | _, _ => false

def jlistBeq : JList → JList → Bool
  | .nil, .nil => true
  | .cons a as, .cons b bs => jvalBeq a b && jlistBeq as bs
  | _, _ => false

def jfieldsBeq : JFields → JFields → Bool
  | .nil, .nil => true
  | .cons k1 v1 fs1, .cons k2 v2 fs2 => k1 == k2 && jvalBeq v1 v2 && jfieldsBeq fs1 fs2
  | _, _ => false
end

/-- JS property read `v[field]`: throws a TypeError on null/undefined,
returns `undefined` for absent properties and on other primitives; arrays and
strings expose `length`. -/
def jsGet (v : JVal) (field : String) : Except String JVal :=
  match v with
  | .null => .error ("Cannot read properties of null (reading " ++ field ++ ")")
  | .undef => .error ("Cannot read properties of undefined (reading " ++ field ++ ")")
  | .obj fs =>
      match fs.lookup field with
      | some w => .ok w
      | none => .ok .undef
  | .arr xs => if field = "length" then .ok (.num xs.length) else .ok .undef
  | .str s => if field = "length" then .ok (.num s.length) else .ok .undef
  | _ => .ok (.undef)

/-- JS `x > k` for an integer literal `k`: true only when `x` is a number
greater than `k` (comparisons against `undefined` are false; numeric coercion
of other primitives is approximated as false — no source path feeds them). -/
def jsGtInt (v : JVal) (k : Int) : Bool :=
  match v with
  | .num n => n > k
  | _ => false

/-- JS `x < k` for an integer literal `k`, same approximation as `jsGtInt`. -/
def jsLtInt (v : JVal) (k : Int) : Bool :=
  match v with
  | .num n => n < k
  | _ => false

/-- JS `x === k` for an integer literal `k` (strict equality, no coercion). -/
def jsEqInt (v : JVal) (k : Int) : Bool :=
  match v with
  | .num n => n == k
  | _ => false

/-- A structured validation finding as pushed onto `result.errors`,
`result.warnings` or `result.suggestions`.  JS object keys that a given push
site omits are modelled as `none`. -/
structure Msg where
  mtype : String
  context : Option String
  property : Option String
  message : String
  value : Option JVal
  severity : String

/-- The outcome of running a piece of validator code: either a normal value or
a thrown JS error message, together with the findings pushed onto the shared
result object before returning or throwing.  Because the JS code only ever
appends to `result.errors` / `result.warnings` / `result.suggestions` and
never reads them until finalization, this writer-with-abort model is an exact
account of the mutation. -/
structure VOut (α : Type) where
  res : Except String α
  errs : List Msg
  warns : List Msg
  suggs : List Msg

/-- Run `x`, then (unless `x` threw) run `f` on its value; findings pushed by
both parts accumulate in order, and a throw keeps everything pushed so far. -/
def vbind {α β : Type} (x : VOut α) (f : α → VOut β) : VOut β :=
  match x.res with
  | .error e => ⟨.error e, x.errs, x.warns, x.suggs⟩
  | .ok a =>
      let y := f a
      ⟨y.res, x.errs ++ y.errs, x.warns ++ y.warns, x.suggs ++ y.suggs⟩

/-- A computation that just returns a value. -/
def vpure {α : Type} (a : α) : VOut α := ⟨.ok a, [], [], []⟩

instance : Monad VOut where
  pure := vpure
  bind := vbind

/-- `result.errors.push(m)`. -/
def pushErr (m : Msg) : VOut Unit := ⟨.ok (), [m], [], []⟩

/-- `result.warnings.push(m)`. -/
def pushWarn (m : Msg) : VOut Unit := ⟨.ok (), [], [m], []⟩

/-- `result.suggestions.push(m)`. -/
def pushSugg (m : Msg) : VOut Unit := ⟨.ok (), [], [], [m]⟩

/-- A thrown JS error carrying its message. -/
def throwJs {α : Type} (msg : String) : VOut α := ⟨.error msg, [], [], []⟩

/-- Property read inside the validator monad. -/
def jsGetM (v : JVal) (field : String) : VOut JVal :=
  match jsGet v field with
  | .ok w => vpure w
  | .error e => throwJs e

/-- `coll.forEach((x, i) => body)` where indexing starts at `start`:
iterates an array in order, throws a TypeError on any other truthy value. -/
def jsForEachFrom (body : JVal → Nat → VOut Unit) (label : String) :
    JVal → Nat → VOut Unit
  | .arr xs, start => jsForEachList body xs start
  | _, _ => throwJs (label ++ ".forEach is not a function")
where
  jsForEachList (body : JVal → Nat → VOut Unit) : JList → Nat → VOut Unit
    | .nil, _ => vpure ()
    | .cons x xs, i => vbind (body x i) (fun _ => jsForEachList body xs (i + 1))

/-- `coll.forEach((x, i) => body)` starting at index 0. -/
def jsForEach (body : JVal → Nat → VOut Unit) (label : String) (v : JVal) :
    VOut Unit :=
  jsForEachFrom body label v 0

/-- `value.length` as read by `validateField` and the `.length` checks; only
ever applied to truthy values, for which `jsGet` cannot throw. -/
def lenProp (v : JVal) : JVal :=
  match jsGet v "length" with
  | .ok w => w
  | .error _ => (.undef)

/-- `list.includes(v)` for a list of string literals: JS strict equality means
only an equal string matches. -/
def jsIncludes (xs : List String) (v : JVal) : Bool :=
  match v with
  | .str s => xs.contains s
  | _ => false

/-- `v === lit` for a string literal (JS strict equality). -/
def jsEqStr (v : JVal) (lit : String) : Bool :=
  match v with
  | .str s => s == lit
  | _ => false

/-- Split a character list at every occurrence of `sep` (the behaviour of
`String.prototype.split` with a one-character separator, which is how the
anchored ordId/version regexes are compiled below). -/
def splitCharList (sep : Char) : List Char → List (List Char)
  | [] => [[]]
  | c :: cs =>
      let r := splitCharList sep cs
      if c = sep then [] :: r
      else
        match r with
        | [] => [[c]]
        | g :: gs => (c :: g) :: gs

/-- Split a string at a one-character separator. -/
def jsSplit (sep : Char) (s : String) : List String :=
  (splitCharList sep s.toList).map String.mk

/-- ASCII lower-casing of one character (the effect of
`String.prototype.toLowerCase` on the ASCII catalog keys). -/
def lowerChar (c : Char) : Char :=
  if 'A' ≤ c ∧ c ≤ 'Z' then Char.ofNat (c.toNat + 32) else c

/-- ASCII `String.prototype.toLowerCase`. -/
def jsToLowerCase (s : String) : String :=
  String.mk (s.toList.map lowerChar)

/-- An ASCII whitespace character (`String.prototype.trim` also folds some
Unicode space, which no source string uses). -/
def isWsp (c : Char) : Bool :=
  c = ' ' || c = '\t' || c = '\n' || c = '\r'

/-- `String.prototype.trim`. -/
def jsTrim (s : String) : String :=
  String.mk (((s.toList.dropWhile isWsp).reverse.dropWhile isWsp).reverse)

/-- A character of the class `[a-zA-Z0-9._-]` from the ordId regex. -/
def idSegChar (c : Char) : Bool :=
  c.isAlpha || c.isDigit || c == '.' || c == '_' || c == '-'

/-- A nonempty run of `[a-zA-Z0-9._-]`. -/
def idSeg (s : String) : Bool :=
  s ≠ "" && s.toList.all idSegChar

/-- The final ordId segment `v\d+`. -/
def versionSeg (s : String) : Bool :=
  match s.toList with
  | 'v' :: rest => !rest.isEmpty && rest.all Char.isDigit
  | _ => false

/-- The regex `/^[a-zA-Z0-9._-]+:[a-zA-Z0-9._-]+:[a-zA-Z0-9._-]+:v\d+$/` for
`ordId`.  Because `:` is excluded from the segment character class, splitting
on `:` is an exact compilation of the anchored regex. -/
def ordIdPat (s : String) : Bool :=
  match jsSplit ':' s with
  | [a, b, c, d] => idSeg a && idSeg b && idSeg c && versionSeg d
  | _ => false

/-- The regex `/^[a-zA-Z0-9._:-]+$/` for `vendor` references. -/
def vendorPat (s : String) : Bool :=
  s ≠ "" && s.toList.all (fun c => idSegChar c || c == ':')

/-- The regex `/^\d+\.\d+\.\d+$/` for `openResourceDiscoveryVersion`. -/
def versionPat (s : String) : Bool :=
  match jsSplit '.' s with
  | [a, b, c] =>
      (a ≠ "" && a.toList.all Char.isDigit) &&
      (b ≠ "" && b.toList.all Char.isDigit) &&
      (c ≠ "" && c.toList.all Char.isDigit)
  | _ => false

/-- One entry of `this.validationRules` (`setupValidationRules`). -/
structure Rule where
  required : Bool
  pat : Option (String → Bool)
  maxLength : Option Int
  minLength : Option Int
  enumVals : Option (List String)
  description : String

/-- `setupValidationRules` / `this.validationRules.get(field)`: the per-field
rule map built in the `OrdValidator` constructor. -/
def validationRules (field : String) : Option Rule :=
  if field = "ordId" then
    some ⟨true, some ordIdPat, none, none, none,
      "ORD ID must follow format: namespace:type:name:version"⟩
  else if field = "title" then
    some ⟨true, none, some 255, some 1, none,
      "Title is required and must be between 1-255 characters"⟩
  else if field = "shortDescription" then
    some ⟨true, none, some 255, some 1, none,
      "Short description is required and must be between 1-255 characters"⟩
  else if field = "vendor" then
    some ⟨true, some vendorPat, none, none, none,
      "Vendor must be a valid ORD ID reference"⟩
  else if field = "apiProtocol" then
    some ⟨true, none, none, none,
      some ["odata-v2", "odata-v4", "rest", "graphql", "soap", "rpc"],
      "API protocol must be one of the supported values"⟩
  else if field = "eventResourceType" then
    some ⟨true, none, none, none,
      some ["BusinessEvent", "TechnicalEvent"],
      "Event resource type must be BusinessEvent or TechnicalEvent"⟩
  else none

/-- `validateRequiredField(obj, field, context, result)`: a falsy field value
(including absent, empty string, 0, false, null) is reported as missing. -/
def validateRequiredField (obj : JVal) (field : String) (context : String) :
    VOut Bool := do
  let v ← jsGetM obj field
  if ¬ truthy v then do
    pushErr ⟨"field_validation", some context, some field,
      "Missing required field: " ++ field, none, "error"⟩
    vpure false
  else
    vpure true

/-- `validateField(obj, field, context, result)`: applies the pattern, length
and enum rules of `validationRules` to a truthy field value; returns without
any finding when there is no rule or the value is falsy. -/
def validateField (obj : JVal) (field : String) (context : String) :
    VOut Unit := do
  let value ← jsGetM obj field
  match validationRules field with
  | none => vpure ()
  | some rule =>
    if ¬ truthy value then vpure () else do
      (match rule.pat with
       | some p =>
           if ¬ p (jsToString value) then
             pushErr ⟨"field_validation", some context, some field,
               "Invalid format for " ++ field ++ ": " ++ rule.description,
               some value, "error"⟩
           else vpure ()
       | none => vpure ())
      (match rule.maxLength with
       | some k =>
           if jsGtInt (lenProp value) k then
             pushErr ⟨"field_validation", some context, some field,
               field ++ " exceeds maximum length of " ++ toString k ++ " characters",
               some value, "error"⟩
           else vpure ()
       | none => vpure ())
      (match rule.minLength with
       | some k =>
           if jsLtInt (lenProp value) k then
             pushErr ⟨"field_validation", some context, some field,
               field ++ " is below minimum length of " ++ toString k ++ " characters",
               some value, "error"⟩
           else vpure ()
       | none => vpure ())
      (match rule.enumVals with
       | some es =>
           if ¬ jsIncludes es value then
             pushErr ⟨"field_validation", some context, some field,
               "Invalid value for " ++ field ++ ". Expected one of: " ++
                 String.intercalate ", " es,
               some value, "error"⟩
           else vpure ()
       | none => vpure ())

/-- `validateEntryPoint(entryPoint, context, result)`. -/
def validateEntryPoint (entryPoint : JVal) (context : String) : VOut Unit := do
  let t ← jsGetM entryPoint "type"
  (if ¬ truthy t then
    pushErr ⟨"field_validation", some context, some "type",
      "Entry point must have a type", none, "error"⟩
  else vpure ())
  let u ← jsGetM entryPoint "url"
  if ¬ truthy u then
    pushErr ⟨"field_validation", some context, some "url",
      "Entry point must have a URL", none, "error"⟩
  else vpure ()

/-- `validateResourceDefinition(definition, context, result, resourceType)`. -/
def validateResourceDefinition (definition : JVal) (context : String)
    (resourceType : String) : VOut Unit := do
  let t ← jsGetM definition "type"
  (if ¬ truthy t then
    pushErr ⟨"field_validation", some context, some "type",
      "Resource definition must have a type", none, "error"⟩
  else vpure ())
  let mt ← jsGetM definition "mediaType"
  (if ¬ truthy mt then
    pushErr ⟨"field_validation", some context, some "mediaType",
      "Resource definition must have a media type", none, "error"⟩
  else vpure ())
  let u ← jsGetM definition "url"
  let c ← jsGetM definition "content"
  (if ¬ truthy u ∧ ¬ truthy c then
    pushErr ⟨"field_validation", some context, some "url",
      "Resource definition must have either URL or inline content", none, "error"⟩
  else vpure ())
  (if resourceType = "api" ∧ truthy t then
    if ¬ jsIncludes ["openapi-v3", "edmx", "csdl-json", "wsdl-v1", "rfcmetadata-v1"] t then
      pushWarn ⟨"field_validation", some context, some "type",
        "Non-standard API resource definition type: " ++ jsToString t, none, "warning"⟩
    else vpure ()
  else vpure ())
  if resourceType = "event" ∧ truthy t then
    if ¬ jsIncludes ["asyncapi-v2", "asyncapi-v3"] t then
      pushWarn ⟨"field_validation", some context, some "type",
        "Non-standard event resource definition type: " ++ jsToString t, none, "warning"⟩
    else vpure ()
  else vpure ()

/-- `validateCredentialStrategy(strategy, context, result)`. -/
def validateCredentialStrategy (strategy : JVal) (context : String) :
    VOut Unit := do
  let t ← jsGetM strategy "type"
  (if ¬ truthy t then
    pushErr ⟨"field_validation", some context, some "type",
      "Credential exchange strategy must have a type", none, "error"⟩
  else vpure ())
  (if truthy t ∧ ¬ jsIncludes ["oauth2", "basic", "custom"] t then
    pushWarn ⟨"field_validation", some context, some "type",
      "Non-standard credential exchange strategy: " ++ jsToString t, none, "warning"⟩
  else vpure ())
  if jsEqStr t "oauth2" then do
    let cb ← jsGetM strategy "callbackUrl"
    if ¬ truthy cb then
      pushErr ⟨"field_validation", some context, some "callbackUrl",
        "OAuth2 strategy requires a callback URL", none, "error"⟩
    else vpure ()
  else vpure ()

/-- `Object.entries`: fields of an object in order, indices of an array. -/
def jlistEnumFrom : JList → Nat → List (String × JVal)
  | .nil, _ => []
  | .cons x xs, i => (toString i, x) :: jlistEnumFrom xs (i + 1)

/-- `Object.entries(v)` for the values `validateLabels` can reach. -/
def jsEntries : JVal → List (String × JVal)
  | .obj fs => fs.toList
  | .arr xs => jlistEnumFrom xs 0
  | _ => []

/-- The `Object.entries(labels).forEach` loop of `validateLabels`. -/
def labelsLoop (context : String) : List (String × JVal) → VOut Unit
  | [] => vpure ()
  | (k, v) :: rest =>
      vbind
        (if ¬ isArrayType v then
          pushErr ⟨"field_validation", some context, some ("labels." ++ k),
            "Label values must be arrays", none, "error"⟩
        else vpure ())
        (fun _ => labelsLoop context rest)

/-- `validateLabels(labels, context, result)`. -/
def validateLabels (labels : JVal) (context : String) : VOut Unit :=
  if ¬ isObjectType labels then
    pushErr ⟨"field_validation", some context, some "labels",
      "Labels must be an object", none, "error"⟩
  else
    labelsLoop context (jsEntries labels)

/-- `validateStructure(metadata, result)`: top-level shape, version format and
the no-resources warning.  The `resourceTypes.some(...)` property reads on an
object are effect-free, so reading the four collections up front is exact. -/
def validateStructure (m : JVal) : VOut Unit :=
  if ¬ isObjectType m then
    pushErr ⟨"structure", none, none,
      "Metadata must be a valid JSON object", none, "error"⟩
  else do
    let v ← jsGetM m "openResourceDiscoveryVersion"
    (if ¬ truthy v then
      pushErr ⟨"structure", none, some "openResourceDiscoveryVersion",
        "Missing required property: openResourceDiscoveryVersion", none, "error"⟩
    else vpure ())
    (if truthy v then
      if ¬ versionPat (jsToString v) then
        pushErr ⟨"structure", none, some "openResourceDiscoveryVersion",
          "Invalid version format. Expected semantic version (e.g., 1.9.0)", none, "error"⟩
      else vpure ()
    else vpure ())
    let ps ← jsGetM m "products"
    let cs ← jsGetM m "capabilities"
    let ars ← jsGetM m "apiResources"
    let ers ← jsGetM m "eventResources"
    let hasResources :=
      (truthy ps ∧ jsGtInt (lenProp ps) 0) ∨ (truthy cs ∧ jsGtInt (lenProp cs) 0) ∨
      (truthy ars ∧ jsGtInt (lenProp ars) 0) ∨ (truthy ers ∧ jsGtInt (lenProp ers) 0)
    if ¬ hasResources then
      pushWarn ⟨"structure", none, none,
        "No resources defined. Consider adding products, capabilities, APIs, or events",
        none, "warning"⟩
    else vpure ()

/-- `validateProduct(product, index, result, strict)`. -/
def validateProduct (product : JVal) (index : Nat) (strict : Bool) :
    VOut Unit := do
  let context := "products[" ++ toString index ++ "]"
  _ ← validateRequiredField product "ordId" context
  _ ← validateRequiredField product "title" context
  _ ← validateRequiredField product "shortDescription" context
  _ ← validateRequiredField product "vendor" context
  validateField product "ordId" context
  validateField product "title" context
  validateField product "shortDescription" context
  let desc ← jsGetM product "description"
  (if ¬ truthy desc ∧ strict then
    pushSugg ⟨"enhancement", some context, none,
      "Consider adding a detailed description for better documentation", none, "info"⟩
  else vpure ())
  let labels ← jsGetM product "labels"
  if truthy labels then validateLabels labels context else vpure ()

/-- `validateCapability(capability, index, result, strict)` (`strict` is in
the JS signature but unused by the body). -/
def validateCapability (capability : JVal) (index : Nat) (_strict : Bool) :
    VOut Unit := do
  let context := "capabilities[" ++ toString index ++ "]"
  _ ← validateRequiredField capability "ordId" context
  _ ← validateRequiredField capability "title" context
  _ ← validateRequiredField capability "shortDescription" context
  _ ← validateRequiredField capability "type" context
  validateField capability "ordId" context
  validateField capability "title" context
  validateField capability "shortDescription" context
  let t ← jsGetM capability "type"
  if truthy t then do
    let ct ← jsGetM capability "customType"
    if ¬ jsIncludes
        ["sap.mdo:capability-type:business-capability:v1",
         "sap.mdo:capability-type:technical-capability:v1"] t ∧ ¬ truthy ct then
      pushWarn ⟨"field_validation", some context, some "type",
        "Non-standard capability type. Consider using standard types or define customType",
        none, "warning"⟩
    else vpure ()
  else vpure ()

/-- `validateApiResource(api, index, result, strict)`. -/
def validateApiResource (api : JVal) (index : Nat) (strict : Bool) :
    VOut Unit := do
  let context := "apiResources[" ++ toString index ++ "]"
  _ ← validateRequiredField api "ordId" context
  _ ← validateRequiredField api "title" context
  _ ← validateRequiredField api "shortDescription" context
  _ ← validateRequiredField api "apiProtocol" context
  validateField api "ordId" context
  validateField api "title" context
  validateField api "shortDescription" context
  validateField api "apiProtocol" context
  let eps ← jsGetM api "entryPoints"
  (if ¬ truthy eps ∨ jsEqInt (lenProp eps) 0 then
    pushErr ⟨"field_validation", some context, some "entryPoints",
      "API resource must have at least one entry point", none, "error"⟩
  else
    jsForEach
      (fun ep epIndex =>
        validateEntryPoint ep (context ++ ".entryPoints[" ++ toString epIndex ++ "]"))
      "api.entryPoints" eps)
  let rd ← jsGetM api "resourceDefinitions"
  if truthy rd then
    jsForEach
      (fun d defIndex =>
        validateResourceDefinition d
          (context ++ ".resourceDefinitions[" ++ toString defIndex ++ "]") "api")
      "api.resourceDefinitions" rd
  else if strict then
    pushSugg ⟨"enhancement", some context, none,
      "Consider adding resource definitions (OpenAPI, EDMX, etc.) for better API documentation",
      none, "info"⟩
  else vpure ()

/-- `validateEventResource(event, index, result, strict)`. -/
def validateEventResource (event : JVal) (index : Nat) (strict : Bool) :
    VOut Unit := do
  let context := "eventResources[" ++ toString index ++ "]"
  _ ← validateRequiredField event "ordId" context
  _ ← validateRequiredField event "title" context
  _ ← validateRequiredField event "shortDescription" context
  _ ← validateRequiredField event "eventResourceType" context
  validateField event "ordId" context
  validateField event "title" context
  validateField event "shortDescription" context
  validateField event "eventResourceType" context
  let rd ← jsGetM event "resourceDefinitions"
  if truthy rd then
    jsForEach
      (fun d defIndex =>
        validateResourceDefinition d
          (context ++ ".resourceDefinitions[" ++ toString defIndex ++ "]") "event")
      "event.resourceDefinitions" rd
  else if strict then
    pushSugg ⟨"enhancement", some context, none,
      "Consider adding AsyncAPI specification for better event documentation",
      none, "info"⟩
  else vpure ()

/-- `validateConsumptionBundle(bundle, index, result, strict)` (`strict`
unused by the body). -/
def validateConsumptionBundle (bundle : JVal) (index : Nat) (_strict : Bool) :
    VOut Unit := do
  let context := "consumptionBundles[" ++ toString index ++ "]"
  _ ← validateRequiredField bundle "ordId" context
  _ ← validateRequiredField bundle "title" context
  _ ← validateRequiredField bundle "shortDescription" context
  _ ← validateRequiredField bundle "credentialExchangeStrategies" context
  validateField bundle "ordId" context
  validateField bundle "title" context
  validateField bundle "shortDescription" context
  let ces ← jsGetM bundle "credentialExchangeStrategies"
  (if truthy ces then
    if ¬ isArrayType ces ∨ jsEqInt (lenProp ces) 0 then
      pushErr ⟨"field_validation", some context, some "credentialExchangeStrategies",
        "Must have at least one credential exchange strategy", none, "error"⟩
    else
      jsForEach
        (fun s stratIndex =>
          validateCredentialStrategy s
            (context ++ ".credentialExchangeStrategies[" ++ toString stratIndex ++ "]"))
        "bundle.credentialExchangeStrategies" ces
  else vpure ())
  let ar ← jsGetM bundle "apiResources"
  let er ← jsGetM bundle "eventResources"
  let hasResources :=
    (truthy ar ∧ jsGtInt (lenProp ar) 0) ∨ (truthy er ∧ jsGtInt (lenProp er) 0)
  if ¬ hasResources then
    pushWarn ⟨"field_validation", some context, none,
      "Consumption bundle should reference at least one API or event resource",
      none, "warning"⟩
  else vpure ()

/-- `validateVendor(vendor, index, result, strict)` (`strict` unused). -/
def validateVendor (vendor : JVal) (index : Nat) (_strict : Bool) :
    VOut Unit := do
  let context := "vendors[" ++ toString index ++ "]"
  _ ← validateRequiredField vendor "ordId" context
  _ ← validateRequiredField vendor "title" context
  validateField vendor "ordId" context
  validateField vendor "title" context

/-- The six id `Set`s built by `validateCrossReferences` (JS `Set` preserving
insertion order, duplicates ignored on `add`). -/
structure CrossState where
  allOrdIds : List JVal
  vendorIds : List JVal
  productIds : List JVal
  capabilityIds : List JVal
  apiIds : List JVal
  eventIds : List JVal
  bundleIds : List JVal

/-- `set.has(v)` under SameValueZero. -/
def svzMem (s : List JVal) (v : JVal) : Bool :=
  s.any (fun w => jvalBeq w v)

/-- `set.add(v)`: appends only when absent. -/
def svzAdd (s : List JVal) (v : JVal) : List JVal :=
  if svzMem s v then s else s ++ [v]

/-- The `metadata.vendors.forEach` collection loop of
`validateCrossReferences`. -/
def crossVendorsLoop : JList → CrossState → VOut CrossState
  | .nil, st => vpure st
  | .cons vendor rest, st =>
      vbind (jsGetM vendor "ordId") (fun oid =>
        let st2 :=
          if truthy oid then
            { st with vendorIds := svzAdd st.vendorIds oid,
                      allOrdIds := svzAdd st.allOrdIds oid }
          else st
        crossVendorsLoop rest st2)

/-- The `metadata.products.forEach` loop of `validateCrossReferences`:
collects product ids and warns on vendor references absent from
`vendorIds`. -/
def crossProductsLoop : JList → CrossState → VOut CrossState
  | .nil, st => vpure st
  | .cons product rest, st =>
      vbind (jsGetM product "ordId") (fun oid =>
      let st2 :=
        if truthy oid then
          { st with productIds := svzAdd st.productIds oid,
                    allOrdIds := svzAdd st.allOrdIds oid }
        else st
      vbind (jsGetM product "vendor") (fun vref =>
      vbind
        (if truthy vref ∧ ¬ svzMem st2.vendorIds vref then
          pushWarn ⟨"cross_reference", none, none,
            "Product " ++ (if truthy oid then jsToString oid else "unknown") ++
              " references unknown vendor: " ++ jsToString vref,
            none, "warning"⟩
        else vpure ())
        (fun _ => crossProductsLoop rest st2)))

/-- The `metadata.capabilities.forEach` collection loop. -/
def crossCapabilitiesLoop : JList → CrossState → VOut CrossState
  | .nil, st => vpure st
  | .cons capability rest, st =>
      vbind (jsGetM capability "ordId") (fun oid =>
        let st2 :=
          if truthy oid then
            { st with capabilityIds := svzAdd st.capabilityIds oid,
                      allOrdIds := svzAdd st.allOrdIds oid }
          else st
        crossCapabilitiesLoop rest st2)

/-- The `metadata.apiResources.forEach` collection loop. -/
def crossApisLoop : JList → CrossState → VOut CrossState
  | .nil, st => vpure st
  | .cons api rest, st =>
      vbind (jsGetM api "ordId") (fun oid =>
        let st2 :=
          if truthy oid then
            { st with apiIds := svzAdd st.apiIds oid,
                      allOrdIds := svzAdd st.allOrdIds oid }
          else st
        crossApisLoop rest st2)

/-- The `metadata.eventResources.forEach` collection loop. -/
def crossEventsLoop : JList → CrossState → VOut CrossState
  | .nil, st => vpure st
  | .cons event rest, st =>
      vbind (jsGetM event "ordId") (fun oid =>
        let st2 :=
          if truthy oid then
            { st with eventIds := svzAdd st.eventIds oid,
                      allOrdIds := svzAdd st.allOrdIds oid }
          else st
        crossEventsLoop rest st2)

/-- `const refId = typeof apiRef === 'string' ? apiRef : apiRef.ordId`. -/
def refIdOf (ref : JVal) : VOut JVal :=
  if isStringType ref then vpure ref else jsGetM ref "ordId"

/-- One bundle reference array (`bundle.apiResources.forEach` or
`bundle.eventResources.forEach`): a truthy reference id absent from `ids`
is a `cross_reference` error. -/
def crossBundleRefsLoop (ids : List JVal) (bundleOid : JVal)
    (kindName : String) : JList → VOut Unit
  | .nil => vpure ()
  | .cons ref rest =>
      vbind (refIdOf ref) (fun refId =>
      vbind
        (if truthy refId ∧ ¬ svzMem ids refId then
          pushErr ⟨"cross_reference", none, none,
            "Consumption bundle " ++
              (if truthy bundleOid then jsToString bundleOid else "unknown") ++
              " references unknown " ++ kindName ++ " resource: " ++ jsToString refId,
            none, "error"⟩
        else vpure ())
        (fun _ => crossBundleRefsLoop ids bundleOid kindName rest))

/-- The `metadata.consumptionBundles.forEach` loop of
`validateCrossReferences`. -/
def crossBundlesLoop : JList → CrossState → VOut CrossState
  | .nil, st => vpure st
  | .cons bundle rest, st =>
      vbind (jsGetM bundle "ordId") (fun oid =>
      let st2 :=
        if truthy oid then
          { st with bundleIds := svzAdd st.bundleIds oid,
                    allOrdIds := svzAdd st.allOrdIds oid }
        else st
      vbind (jsGetM bundle "apiResources") (fun ar =>
      vbind
        (if truthy ar then
          match ar with
          | .arr xs => crossBundleRefsLoop st2.apiIds oid "API" xs
          | _ => throwJs "bundle.apiResources.forEach is not a function"
        else vpure ())
        (fun _ =>
      vbind (jsGetM bundle "eventResources") (fun er =>
      vbind
        (if truthy er then
          match er with
          | .arr xs => crossBundleRefsLoop st2.eventIds oid "event" xs
          | _ => throwJs "bundle.eventResources.forEach is not a function"
        else vpure ())
        (fun _ => crossBundlesLoop rest st2)))))

/-- The final `allOrdIds.forEach` duplicate scan of `validateCrossReferences`:
it iterates the `allOrdIds` Set against a fresh `seenIds` Set and reports any
id already seen as a `Duplicate ORD ID found` error. -/
def dupLoop : List JVal → List JVal → VOut Unit
  | [], _ => vpure ()
  | oid :: rest, seen =>
      if svzMem seen oid then
        vbind
          (pushErr ⟨"cross_reference", none, none,
            "Duplicate ORD ID found: " ++ jsToString oid, none, "error"⟩)
          (fun _ => dupLoop rest seen)
      else dupLoop rest (svzAdd seen oid)

/-- One collection step of `validateCrossReferences`: `if (metadata.X)
metadata.X.forEach(...)` — skip a falsy collection, iterate an array, throw
the TypeError on any other truthy value. -/
def crossColl (loop : JList → CrossState → VOut CrossState) (label : String)
    (v : JVal) (st : CrossState) : VOut CrossState :=
  if truthy v then
    match v with
    | .arr xs => loop xs st
    | _ => throwJs (label ++ ".forEach is not a function")
  else vpure st

/-- `validateCrossReferences(metadata, result)`. -/
def validateCrossReferences (m : JVal) : VOut Unit := do
  let st0 : CrossState := ⟨[], [], [], [], [], [], []⟩
  let vs ← jsGetM m "vendors"
  let st1 ← crossColl crossVendorsLoop "metadata.vendors" vs st0
  let ps ← jsGetM m "products"
  let st2 ← crossColl crossProductsLoop "metadata.products" ps st1
  let cs ← jsGetM m "capabilities"
  let st3 ← crossColl crossCapabilitiesLoop "metadata.capabilities" cs st2
  let ars ← jsGetM m "apiResources"
  let st4 ← crossColl crossApisLoop "metadata.apiResources" ars st3
  let ers ← jsGetM m "eventResources"
  let st5 ← crossColl crossEventsLoop "metadata.eventResources" ers st4
  let cbs ← jsGetM m "consumptionBundles"
  let st6 ← crossColl crossBundlesLoop "metadata.consumptionBundles" cbs st5
  dupLoop st6.allOrdIds []

/-- The body of the `try` block of `validateMetadata`: structure phase, the
six per-collection phases, then cross references. -/
def validateBody (m : JVal) (strict : Bool) : VOut Unit := do
  validateStructure m
  let ps ← jsGetM m "products"
  (if truthy ps then
    jsForEach (fun p i => validateProduct p i strict) "metadata.products" ps
  else vpure ())
  let cs ← jsGetM m "capabilities"
  (if truthy cs then
    jsForEach (fun c i => validateCapability c i strict) "metadata.capabilities" cs
  else vpure ())
  let ars ← jsGetM m "apiResources"
  (if truthy ars then
    jsForEach (fun a i => validateApiResource a i strict) "metadata.apiResources" ars
  else vpure ())
  let ers ← jsGetM m "eventResources"
  (if truthy ers then
    jsForEach (fun e i => validateEventResource e i strict) "metadata.eventResources" ers
  else vpure ())
  let cbs ← jsGetM m "consumptionBundles"
  (if truthy cbs then
    jsForEach (fun b i => validateConsumptionBundle b i strict) "metadata.consumptionBundles" cbs
  else vpure ())
  let vs ← jsGetM m "vendors"
  (if truthy vs then
    jsForEach (fun v i => validateVendor v i strict) "metadata.vendors" vs
  else vpure ())
  validateCrossReferences m

/-- The value `validateMetadata` returns.  The wall-clock `timestamp` field of
the JS result is I/O and carries no validation content, so it is not part of
the model. -/
structure ValidationResult where
  valid : Bool
  errors : List Msg
  warnings : List Msg
  suggestions : List Msg
  validationLevel : String

/-- `validateMetadata(metadata, strict = false)`: runs the phases inside a
`try`, sets `valid = errors.length === 0` on success, and on a thrown error
keeps everything pushed so far, appends one terminal `validation_error`
entry, and still returns the result.  In every case the JS function returns
normally; no exception crosses its boundary. -/
def validateMetadata (metadata : JVal) (strict : Bool) : ValidationResult :=
  let level := if strict then "strict" else "standard"
  let o := validateBody metadata strict
  match o.res with
  | .ok _ => ⟨o.errs.isEmpty, o.errs, o.warns, o.suggs, level⟩
  | .error e =>
      ⟨false,
       o.errs ++ [⟨"validation_error", none, none,
         "Validation failed: " ++ e, none, "error"⟩],
       o.warns, o.suggs, level⟩

/-- Build a `JList` from a Lean list (for writing concrete documents). -/
def jlist : List JVal → JList
  | [] => .nil
  | x :: xs => .cons x (jlist xs)

/-- A JS array literal. -/
def jarr (xs : List JVal) : JVal := .arr (jlist xs)

/-- Build a `JFields` from an association list. -/
def jfields : List (String × JVal) → JFields
  | [] => .nil
  | (k, v) :: fs => .cons k v (jfields fs)

/-- A JS object literal. -/
def jobj (fs : List (String × JVal)) : JVal := .obj (jfields fs)

/-- Indentation of JSON.stringify with indent 2 at nesting depth `d`. -/
def jsonPad (d : Nat) : String :=
  String.mk (List.replicate (2 * d) ' ')

/-- Escaping inside a JSON string literal (quote and backslash; the catalog
strings contain no control characters). -/
def jsonEscapeChar (c : Char) : String :=
  if c = '"' then "\\\"" else if c = '\\' then "\\\\" else String.mk [c]

/-- A JSON string literal. -/
def jsonQuote (s : String) : String :=
  "\"" ++ String.join (s.toList.map jsonEscapeChar) ++ "\""

mutual
/-- `JSON.stringify(v, null, 2)` at depth `d` (undefined never occurs in the
catalog data it serializes). -/
def jsonStringify : JVal → Nat → String
  | .null, _ => "null"
  | .undef, _ => "null"
  | .bool true, _ => "true"
  | .bool false, _ => "false"
  | .num n, _ => toString n
  | .str s, _ => jsonQuote s
  | .arr .nil, _ => "[]"
  | .arr xs, d => "[\n" ++ jsonItems xs (d + 1) ++ "\n" ++ jsonPad d ++ "]"
  | .obj .nil, _ => "\x7b\x7d"
  | .obj fs, d => "\x7b\n" ++ jsonMembers fs (d + 1) ++ "\n" ++ jsonPad d ++ "\x7d"

/-- Array items, one per line, joined by commas. -/
def jsonItems : JList → Nat → String
  | .nil, _ => ""
  | .cons x .nil, d => jsonPad d ++ jsonStringify x d
  | .cons x xs, d => jsonPad d ++ jsonStringify x d ++ ",\n" ++ jsonItems xs d

/-- Object members, one per line, joined by commas. -/
def jsonMembers : JFields → Nat → String
  | .nil, _ => ""
  | .cons k v .nil, d => jsonPad d ++ jsonQuote k ++ ": " ++ jsonStringify v d
  | .cons k v fs, d =>
      jsonPad d ++ jsonQuote k ++ ": " ++ jsonStringify v d ++ ",\n" ++ jsonMembers fs d
end

/-- One value of the frozen `ORD_CONCEPTS` map in src/ord-concepts.js.  The
JS key `example` is a reserved word in Lean, hence the field name
`exampleDoc`. -/
structure ConceptEntry where
  description : String
  exampleDoc : JVal
  keyProperties : List String

/-- The frozen `ORD_CONCEPTS` catalog of src/ord-concepts.js, in the literal
insertion order of the source object (which is the `Object.keys` order).
Apostrophes in source strings are written with the `\x27` escape. -/
def ordConcepts : List (String × ConceptEntry) := [
  ("DocumentProperties",
   ⟨"Root-level properties that define the ORD Document structure and metadata.",
    jobj [
      ("$schema", .str "https://sap.github.io/open-resource-discovery/spec-v1/interfaces/Document.schema.json"),
      ("openResourceDiscovery", .str "1.0"),
      ("description", .str "This document describes the APIs and Events of SAP S/4HANA Cloud"),
      ("perspective", .str "system-instance"),
      ("describedSystemInstance", jobj [
        ("baseUrl", .str "https://my-s4hana.com"),
        ("displayName", .str "My S/4HANA System")]),
      ("policyLevel", .str "sap:core:v1")],
    ["$schema: Reference to ORD Document JSON Schema (MANDATORY)",
     "openResourceDiscovery: ORD specification version (MANDATORY)",
     "description: Human-readable description of the document (OPTIONAL)",
     "perspective: Document perspective - system-instance or system-type (OPTIONAL)",
     "describedSystemInstance: Information about specific system instance (OPTIONAL)",
     "describedSystemType: Information about system type (OPTIONAL)",
     "describedSystemVersion: Version of the described system (OPTIONAL)",
     "policyLevel: Default policy level for compliance (OPTIONAL)",
     "customPolicyLevel: Custom policy level specification ID (OPTIONAL)",
     "policyLevels: List of available policy levels in document (OPTIONAL)"]⟩),
  ("Product",
   ⟨"A commercial product or service. High-level entity for structuring software portfolio from sales/marketing perspective.",
    jobj [
      ("ordId", .str "sap:product:S4HANA_OD:"),
      ("title", .str "SAP S/4HANA Cloud"),
      ("shortDescription", .str "The next generation digital core designed to help you run simple in a digital economy."),
      ("vendor", .str "sap:vendor:SAP:")],
    ["ordId: Unique identifier following ORD ID format (MANDATORY)",
     "title: Human-readable title (MANDATORY)",
     "shortDescription: Plain text short description (MANDATORY)",
     "vendor: Reference to the vendor providing this product (MANDATORY)",
     "description: Full description in CommonMark (OPTIONAL)",
     "parent: Parent product ORD ID for hierarchical structure (OPTIONAL)",
     "correlationIds: References to related data in other repositories (OPTIONAL)",
     "tags: List of free text style tags (OPTIONAL)",
     "labels: Generic labels for technical information (OPTIONAL)",
     "documentationLabels: Human-readable documentation snippets (OPTIONAL)"]⟩),
  ("Package",
   ⟨"Organizes a set of related resources together by publishing and catalog presentation concerns. Contains at least one resource.",
    jobj [
      ("ordId", .str "sap.s4:package:SalesOrder:v1"),
      ("title", .str "Sales Order Management"),
      ("shortDescription", .str "APIs and events for sales order processing"),
      ("description", .str "Complete sales order management capabilities including creation, modification, and lifecycle management."),
      ("version", .str "1.2.3"),
      ("vendor", .str "sap:vendor:SAP:")],
    ["ordId: Unique package identifier (MANDATORY)",
     "title: Human-readable title (MANDATORY)",
     "shortDescription: Plain text short description (MANDATORY)",
     "description: Full description in CommonMark (MANDATORY)",
     "version: Semantic version following SemVer 2.0.0 (MANDATORY)",
     "vendor: Creator/responsible party vendor reference (MANDATORY)",
     "localId: Locally unique ID within the system (OPTIONAL)",
     "partOfProducts: List of products this package belongs to (OPTIONAL)",
     "countries: List of applicable country codes (ISO-3166 ALPHA-2) (OPTIONAL)",
     "lineOfBusiness: List of line of business tags (OPTIONAL)",
     "industry: List of industry tags (OPTIONAL)",
     "tags: List of free text style tags (OPTIONAL)",
     "labels: Generic labels (OPTIONAL)",
     "documentationLabels: Documentation labels (OPTIONAL)",
     "packageLinks: Links with specific semantic meaning (OPTIONAL)",
     "links: Generic links (OPTIONAL)",
     "licenseType: SPDX License identifier (OPTIONAL)",
     "supportInfo: Support ticket information (OPTIONAL)",
     "runtimeRestriction: System namespace restriction (OPTIONAL)",
     "policyLevels: List of policy levels for compliance (OPTIONAL)"]⟩),
  ("ConsumptionBundle",
   ⟨"Groups APIs and Events that can be consumed with the same credentials and auth mechanism. Includes access instructions.",
    jobj [
      ("ordId", .str "sap.s4:consumptionBundle:SalesOrderBundle:v1"),
      ("title", .str "Sales Order API Bundle"),
      ("shortDescription", .str "All Sales Order APIs consumable with single credential set"),
      ("version", .str "1.0.0")],
    ["ordId: Unique bundle identifier (MANDATORY)",
     "title: Human-readable title (MANDATORY)",
     "localId: Locally unique ID within the system (OPTIONAL)",
     "shortDescription: Plain text short description (OPTIONAL)",
     "description: Full description in CommonMark (OPTIONAL)",
     "version: Semantic version following SemVer 2.0.0 (RECOMMENDED)",
     "lastUpdate: Date-time of last change (RECOMMENDED)",
     "visibility: Who can see the bundle (public/internal/private) (OPTIONAL)",
     "correlationIds: References to related data in other repositories (OPTIONAL)",
     "credentialExchangeStrategies: Supported credential exchange methods (OPTIONAL)",
     "links: Generic links (OPTIONAL)",
     "tags: List of free text style tags (OPTIONAL)",
     "labels: Generic labels (OPTIONAL)",
     "documentationLabels: Documentation labels (OPTIONAL)"]⟩),
  ("APIResource",
   ⟨"High-level description of an exposed API. Bundles multiple endpoints sharing the same namespace and lifecycle.",
    jobj [
      ("ordId", .str "sap.s4:apiResource:API_SALES_ORDER_SRV:v1"),
      ("title", .str "Sales Order Service"),
      ("shortDescription", .str "Service for managing sales orders"),
      ("description", .str "Complete sales order management API with CRUD operations"),
      ("partOfPackage", .str "sap.s4:package:SalesOrder:v1"),
      ("version", .str "1.0.0"),
      ("visibility", .str "public"),
      ("releaseStatus", .str "active"),
      ("apiProtocol", .str "odata-v4")],
    ["ordId: Unique API identifier (MANDATORY)",
     "title: Human-readable title (MANDATORY)",
     "shortDescription: Plain text short description (MANDATORY)",
     "description: Full description in CommonMark (MANDATORY)",
     "partOfPackage: Reference to containing package (MANDATORY)",
     "version: Semantic version following SemVer 2.0.0 (MANDATORY)",
     "visibility: Who can see the API (public/internal/private) (MANDATORY)",
     "releaseStatus: Stability status (beta/active/deprecated/sunset) (MANDATORY)",
     "apiProtocol: Protocol type (odata-v2/odata-v4/rest/graphql/soap-inbound/etc.) (MANDATORY)",
     "localId: Locally unique ID within the system (OPTIONAL)",
     "correlationIds: References to related data in other repositories (OPTIONAL)",
     "partOfGroups: Groups this resource is assigned to (OPTIONAL)",
     "partOfConsumptionBundles: Consumption bundles containing this API (OPTIONAL)",
     "defaultConsumptionBundle: Default consumption bundle reference (OPTIONAL)",
     "partOfProducts: Products this API is part of (OPTIONAL)",
     "lastUpdate: Date-time of last change (OPTIONAL)",
     "disabled: Whether API is currently unavailable (OPTIONAL)",
     "minSystemVersion: Minimum system version required (OPTIONAL)",
     "deprecationDate: When API was deprecated (OPTIONAL)",
     "sunsetDate: When API will be decommissioned (OPTIONAL)",
     "successors: Successor API resources (OPTIONAL)",
     "changelogEntries: Version change summaries (OPTIONAL)",
     "entryPoints: List of API endpoints (OPTIONAL)",
     "direction: API consumption direction (inbound/outbound/mixed) (OPTIONAL)",
     "resourceDefinitions: Machine-readable API definitions (OPTIONAL)",
     "implementationStandard: Standard API contract implemented (OPTIONAL)",
     "customImplementationStandard: Custom standard specification ID (OPTIONAL)",
     "customImplementationStandardDescription: Custom standard description (OPTIONAL)",
     "compatibleWith: Interface compatibility references (OPTIONAL)",
     "responsible: Organization responsible for the API (OPTIONAL)",
     "supportedUseCases: Intended use case types (OPTIONAL)",
     "usage: API accessibility scope (external/local) (OPTIONAL)",
     "exposedEntityTypes: Entity types exposed by the API (OPTIONAL)",
     "apiResourceLinks: API-specific semantic links (OPTIONAL)",
     "links: Generic links (OPTIONAL)",
     "extensible: Extensibility information (OPTIONAL)",
     "countries: Applicable country codes (OPTIONAL)",
     "lineOfBusiness: Line of business tags (OPTIONAL)",
     "industry: Industry tags (OPTIONAL)",
     "tags: Free text tags (OPTIONAL)",
     "labels: Generic labels (OPTIONAL)",
     "documentationLabels: Documentation labels (OPTIONAL)",
     "policyLevels: Compliance policy levels (OPTIONAL)"]⟩),
  ("EventResource",
   ⟨"High-level description of a collection of related Events. Groups events based on same resource/Business Object.",
    jobj [
      ("ordId", .str "sap.s4:eventResource:SalesOrderEvents:v1"),
      ("title", .str "Sales Order Events"),
      ("shortDescription", .str "All events related to sales order lifecycle"),
      ("description", .str "Events published during sales order creation, modification, and completion"),
      ("partOfPackage", .str "sap.s4:package:SalesOrder:v1"),
      ("version", .str "1.0.0"),
      ("visibility", .str "public"),
      ("releaseStatus", .str "active")],
    ["ordId: Unique event resource identifier (MANDATORY)",
     "title: Human-readable title (MANDATORY)",
     "shortDescription: Plain text short description (MANDATORY)",
     "description: Full description in CommonMark (MANDATORY)",
     "partOfPackage: Reference to containing package (MANDATORY)",
     "version: Semantic version following SemVer 2.0.0 (MANDATORY)",
     "visibility: Who can see the events (public/internal/private) (MANDATORY)",
     "releaseStatus: Stability status (beta/active/deprecated/sunset) (MANDATORY)",
     "localId: Locally unique ID within the system (OPTIONAL)",
     "correlationIds: References to related data in other repositories (OPTIONAL)",
     "partOfGroups: Groups this resource is assigned to (OPTIONAL)",
     "partOfConsumptionBundles: Consumption bundles containing these events (OPTIONAL)",
     "defaultConsumptionBundle: Default consumption bundle reference (OPTIONAL)",
     "partOfProducts: Products these events are part of (OPTIONAL)",
     "lastUpdate: Date-time of last change (RECOMMENDED)",
     "disabled: Whether events are currently unavailable (OPTIONAL)",
     "minSystemVersion: Minimum system version required (OPTIONAL)",
     "deprecationDate: When events were deprecated (OPTIONAL)",
     "sunsetDate: When events will be decommissioned (OPTIONAL)",
     "successors: Successor event resources (OPTIONAL)",
     "changelogEntries: Version change summaries (OPTIONAL)",
     "resourceDefinitions: Machine-readable event definitions (OPTIONAL)",
     "implementationStandard: Standard event contract implemented (OPTIONAL)",
     "customImplementationStandard: Custom standard specification ID (OPTIONAL)",
     "customImplementationStandardDescription: Custom standard description (OPTIONAL)",
     "compatibleWith: Interface compatibility references (OPTIONAL)",
     "responsible: Organization responsible for the events (OPTIONAL)",
     "exposedEntityTypes: Entity types exposed by the events (OPTIONAL)",
     "eventResourceLinks: Event-specific semantic links (OPTIONAL)",
     "links: Generic links (OPTIONAL)",
     "extensible: Extensibility information (OPTIONAL)",
     "countries: Applicable country codes (OPTIONAL)",
     "lineOfBusiness: Line of business tags (OPTIONAL)",
     "industry: Industry tags (OPTIONAL)",
     "tags: Free text tags (OPTIONAL)",
     "labels: Generic labels (OPTIONAL)",
     "documentationLabels: Documentation labels (OPTIONAL)",
     "policyLevels: Compliance policy levels (OPTIONAL)"]⟩),
  ("EntityType",
   ⟨"Describes a business concept/term or underlying conceptual model. Same entity type can be exposed through multiple APIs and events.",
    jobj [
      ("ordId", .str "sap.odm:entityType:BusinessPartner:v1"),
      ("localId", .str "BusinessPartner"),
      ("title", .str "Business Partner"),
      ("shortDescription", .str "A business partner is a person, organization, or group with business interest"),
      ("partOfPackage", .str "sap.odm:package:MasterData:v1"),
      ("version", .str "1.0.0"),
      ("visibility", .str "public"),
      ("releaseStatus", .str "active"),
      ("level", .str "aggregate")],
    ["ordId: Unique entity type identifier (MANDATORY)",
     "localId: Locally unique ID within the system (MANDATORY)",
     "title: Human-readable title (MANDATORY)",
     "partOfPackage: Reference to containing package (MANDATORY)",
     "version: Semantic version following SemVer 2.0.0 (MANDATORY)",
     "visibility: Who can see the entity type (public/internal/private) (MANDATORY)",
     "releaseStatus: Stability status (beta/active/deprecated/sunset) (MANDATORY)",
     "level: Abstraction level using DDD terminology (aggregate/root-entity/sub-entity) (MANDATORY)",
     "correlationIds: References to related data in other repositories (OPTIONAL)",
     "shortDescription: Plain text short description (OPTIONAL)",
     "description: Full description in CommonMark (OPTIONAL)",
     "partOfGroups: Groups this entity type is assigned to (OPTIONAL)",
     "partOfProducts: Products this entity type is part of (OPTIONAL)",
     "lastUpdate: Date-time of last change (RECOMMENDED)",
     "deprecationDate: When entity type was deprecated (OPTIONAL)",
     "sunsetDate: When entity type will be decommissioned (OPTIONAL)",
     "successors: Successor entity types (OPTIONAL)",
     "changelogEntries: Version change summaries (OPTIONAL)",
     "relatedEntityTypes: Related entity type references (OPTIONAL)",
     "links: Generic links (OPTIONAL)",
     "extensible: Extensibility information (OPTIONAL)",
     "tags: Free text tags (OPTIONAL)",
     "labels: Generic labels (OPTIONAL)",
     "documentationLabels: Documentation labels (OPTIONAL)",
     "policyLevels: Compliance policy levels (OPTIONAL)"]⟩),
  ("Capability",
   ⟨"Use case specific capabilities, features, or additional information that needs to be understood from outside. Generic concept covering many capability discovery use cases.",
    jobj [
      ("ordId", .str "sap.s4:capability:fieldExtensibility:v1"),
      ("type", .str "custom"),
      ("customType", .str "sap:field-extensibility:v1"),
      ("title", .str "Field Extensibility"),
      ("shortDescription", .str "Capability to extend business objects with custom fields"),
      ("partOfPackage", .str "sap.s4:package:Extensibility:v1"),
      ("version", .str "1.0.0"),
      ("visibility", .str "public"),
      ("releaseStatus", .str "active")],
    ["ordId: Unique capability identifier (MANDATORY)",
     "type: Type of capability or \x27custom\x27 (MANDATORY)",
     "title: Human-readable title (MANDATORY)",
     "partOfPackage: Reference to containing package (MANDATORY)",
     "version: Semantic version following SemVer 2.0.0 (MANDATORY)",
     "visibility: Who can see the capability (public/internal/private) (MANDATORY)",
     "releaseStatus: Stability status (beta/active/deprecated/sunset) (MANDATORY)",
     "localId: Locally unique ID within the system (OPTIONAL)",
     "correlationIds: References to related data in other repositories (OPTIONAL)",
     "customType: Specification ID if type is \x27custom\x27 (OPTIONAL)",
     "shortDescription: Plain text short description (OPTIONAL)",
     "description: Full description in CommonMark (OPTIONAL)",
     "partOfGroups: Groups this capability is assigned to (OPTIONAL)",
     "lastUpdate: Date-time of last change (RECOMMENDED)",
     "disabled: Whether capability is currently unavailable (OPTIONAL)",
     "minSystemVersion: Minimum system version required (OPTIONAL)",
     "relatedEntityTypes: Related entity type references (OPTIONAL)",
     "definitions: Machine-readable capability definitions (OPTIONAL)",
     "links: Generic links (OPTIONAL)",
     "tags: Free text tags (OPTIONAL)",
     "labels: Generic labels (OPTIONAL)",
     "documentationLabels: Documentation labels (OPTIONAL)"]⟩),
  ("DataProduct",
   ⟨"A data set exposed for consumption outside the boundaries of the producing application via APIs, described by high quality metadata.",
    jobj [
      ("ordId", .str "sap.cic:dataProduct:CustomerOrder:v1"),
      ("title", .str "Customer Order"),
      ("shortDescription", .str "Offering access to all online and offline orders submitted by customers"),
      ("description", .str "Complete customer order dataset with customer view perspective"),
      ("partOfPackage", .str "sap.cic:package:CustomerData:v1"),
      ("version", .str "1.0.0"),
      ("visibility", .str "public"),
      ("releaseStatus", .str "active")],
    ["ordId: Unique data product identifier (MANDATORY)",
     "title: Human-readable title (MANDATORY)",
     "shortDescription: Plain text short description (MANDATORY)",
     "description: Full description in CommonMark (MANDATORY)",
     "partOfPackage: Reference to containing package (MANDATORY)",
     "version: Semantic version following SemVer 2.0.0 (MANDATORY)",
     "visibility: Who can see the data product (public/internal/private) (MANDATORY)",
     "releaseStatus: Stability status (beta/active/deprecated/sunset) (MANDATORY)",
     "localId: Locally unique ID within the system (OPTIONAL)",
     "correlationIds: References to related data in other repositories (OPTIONAL)",
     "partOfGroups: Groups this data product is assigned to (OPTIONAL)",
     "partOfProducts: Products this data product is part of (OPTIONAL)",
     "lastUpdate: Date-time of last change (RECOMMENDED)",
     "disabled: Whether data product is currently unavailable (OPTIONAL)",
     "minSystemVersion: Minimum system version required (OPTIONAL)",
     "deprecationDate: When data product was deprecated (OPTIONAL)",
     "sunsetDate: When data product will be decommissioned (OPTIONAL)",
     "successors: Successor data products (OPTIONAL)",
     "changelogEntries: Version change summaries (OPTIONAL)",
     "category: High level data product category (OPTIONAL)",
     "outputPorts: Endpoints where data can be consumed (OPTIONAL)",
     "responsible: Organization responsible for the data product (OPTIONAL)",
     "dataProductLinks: Data product specific semantic links (OPTIONAL)",
     "links: Generic links (OPTIONAL)",
     "type: Type classification (primary/derived/algorithm) (OPTIONAL)",
     "inputPorts: Data sources and dependencies (OPTIONAL)",
     "extensible: Extensibility information (OPTIONAL)",
     "countries: Applicable country codes (OPTIONAL)",
     "lineOfBusiness: Line of business tags (OPTIONAL)",
     "industry: Industry tags (OPTIONAL)",
     "tags: Free text tags (OPTIONAL)",
     "labels: Generic labels (OPTIONAL)",
     "documentationLabels: Documentation labels (OPTIONAL)",
     "policyLevels: Compliance policy levels (OPTIONAL)"]⟩),
  ("Vendor",
   ⟨"Information about a vendor/organization that provides products, packages, or resources.",
    jobj [
      ("ordId", .str "sap:vendor:SAP:"),
      ("title", .str "SAP SE"),
      ("shortDescription", .str "Leading provider of enterprise software solutions"),
      ("homePage", .str "https://www.sap.com"),
      ("contactInfo", .str "info@sap.com")],
    ["ordId: Unique vendor identifier (MANDATORY)",
     "title: Human-readable vendor name (MANDATORY)",
     "shortDescription: Brief description of the vendor (OPTIONAL)",
     "description: Full description in CommonMark (OPTIONAL)",
     "homePage: Vendor\x27s official website URL (OPTIONAL)",
     "contactInfo: Contact information (email, phone, etc.) (OPTIONAL)",
     "documentationLabels: Documentation labels (OPTIONAL)",
     "labels: Generic labels (OPTIONAL)",
     "tags: Free text tags (OPTIONAL)"]⟩),
  ("Group",
   ⟨"Logical grouping mechanism for organizing related resources across packages.",
    jobj [
      ("groupId", .str "sap.s4:group:SalesManagement"),
      ("groupTypeId", .str "functional-area"),
      ("title", .str "Sales Management"),
      ("shortDescription", .str "All resources related to sales order management and processing")],
    ["groupId: Unique group identifier (MANDATORY)",
     "groupTypeId: Reference to the group type (MANDATORY)",
     "title: Human-readable group name (MANDATORY)",
     "shortDescription: Brief description of the group (OPTIONAL)",
     "description: Full description in CommonMark (OPTIONAL)",
     "documentationLabels: Documentation labels (OPTIONAL)",
     "labels: Generic labels (OPTIONAL)",
     "tags: Free text tags (OPTIONAL)"]⟩),
  ("GroupType",
   ⟨"Defines the type and behavior of resource groups.",
    jobj [
      ("groupTypeId", .str "functional-area"),
      ("title", .str "Functional Area"),
      ("shortDescription", .str "Groups resources by business functional area"),
      ("description", .str "Organizes APIs and Events according to business functionality")],
    ["groupTypeId: Unique group type identifier (MANDATORY)",
     "title: Human-readable type name (MANDATORY)",
     "shortDescription: Brief description of the group type (OPTIONAL)",
     "description: Full description in CommonMark (OPTIONAL)",
     "documentationLabels: Documentation labels (OPTIONAL)",
     "labels: Generic labels (OPTIONAL)",
     "tags: Free text tags (OPTIONAL)"]⟩),
  ("IntegrationDependency",
   ⟨"Describes dependencies on external systems or services for integration scenarios.",
    jobj [
      ("ordId", .str "sap.s4:integrationDependency:SalesForce:v1"),
      ("title", .str "Salesforce Integration"),
      ("shortDescription", .str "Integration dependency for customer data synchronization"),
      ("description", .str "Required integration with Salesforce CRM for customer master data sync"),
      ("partOfPackage", .str "sap.s4:package:CustomerIntegration:v1"),
      ("version", .str "1.0.0"),
      ("visibility", .str "public")],
    ["ordId: Unique integration dependency identifier (MANDATORY)",
     "title: Human-readable title (MANDATORY)",
     "shortDescription: Brief description of the dependency (MANDATORY)",
     "description: Full description in CommonMark (MANDATORY)",
     "partOfPackage: Reference to containing package (MANDATORY)",
     "version: Semantic version following SemVer 2.0.0 (MANDATORY)",
     "visibility: Who can see the dependency (public/internal/private) (MANDATORY)",
     "localId: Locally unique ID within the system (OPTIONAL)",
     "correlationIds: References to related data in other repositories (OPTIONAL)",
     "partOfGroups: Groups this dependency is assigned to (OPTIONAL)",
     "partOfProducts: Products this dependency is part of (OPTIONAL)",
     "lastUpdate: Date-time of last change (OPTIONAL)",
     "aspectEventResources: Event resources related to this dependency (OPTIONAL)",
     "aspects: Integration aspects and requirements (OPTIONAL)",
     "mandatory: Whether this dependency is mandatory (OPTIONAL)",
     "links: Generic links (OPTIONAL)",
     "tags: Free text tags (OPTIONAL)",
     "labels: Generic labels (OPTIONAL)",
     "documentationLabels: Documentation labels (OPTIONAL)"]⟩),
  ("Tombstone",
   ⟨"Marker for resources that have been removed, providing information about deletion.",
    jobj [
      ("ordId", .str "sap.s4:apiResource:DEPRECATED_API:v1"),
      ("removalDate", .str "2024-01-15T10:30:00Z"),
      ("description", .str "This API has been deprecated and removed. Use APIResourceV2 instead."),
      ("successors", jarr [.str "sap.s4:apiResource:API_V2:v1"])],
    ["ordId: ORD ID of the removed resource (MANDATORY)",
     "removalDate: Date when the resource was removed (MANDATORY)",
     "description: Reason for removal and migration information (OPTIONAL)",
     "successors: List of successor resource ORD IDs (OPTIONAL)"]⟩)]

/-- `Object.keys(ORD_CONCEPTS)` (insertion order). -/
def conceptKeys : List String := ordConcepts.map Prod.fst

/-- The error taxonomy of the spec for the explainer: `InvalidArgument` and
`UnknownConcept` are the raised classes; `internalFault` covers the
unreachable defensive throw inside `buildConceptExplanation`. -/
inductive ConceptError where
  | invalidArgument (msg : String)
  | unknownConcept (msg : String)
  | internalFault (msg : String)

/-- `validateConceptName(conceptName)` in src/ord-concepts.js: rejects falsy
or non-string input, trims, rejects whitespace-only input, and looks the
trimmed name up case-insensitively among the catalog keys, returning the
canonical (catalog-cased) key.  `toLower` models the ASCII case folding of
`String.prototype.toLowerCase` on the catalog keys. -/
def validateConceptName (conceptName : JVal) : Except ConceptError String :=
  if ¬ truthy conceptName ∨ ¬ isStringType conceptName then
    .error (.invalidArgument "Concept name must be a non-empty string")
  else
    let normalizedName := jsTrim (jsToString conceptName)
    if normalizedName = "" then
      .error (.invalidArgument "Concept name cannot be empty or whitespace only")
    else
      match conceptKeys.find? (fun key => jsToLowerCase key == jsToLowerCase normalizedName) with
      | some matchingKey => .ok matchingKey
      | none =>
          .error (.unknownConcept
            ("Unknown concept: " ++ normalizedName ++ ". Available concepts: " ++
              String.intercalate ", " conceptKeys))

/-- `buildConceptExplanation(conceptName)` in src/ord-concepts.js: title
line, Description section, Key Properties bullets, Example JSON block. -/
def buildConceptExplanation (conceptName : String) : Except ConceptError String :=
  match List.lookup conceptName ordConcepts with
  | none => .error (.internalFault ("Concept " ++ conceptName ++ " not found"))
  | some concept =>
      let explanation :=
        "# ORD Concept: " ++ conceptName ++ "\n\n" ++
        "## Description\n" ++ concept.description ++ "\n\n"
      let explanation :=
        if concept.keyProperties.length > 0 then
          explanation ++ "## Key Properties\n" ++
            String.join (concept.keyProperties.map (fun property => "- " ++ property ++ "\n")) ++
            "\n"
        else explanation
      let explanation :=
        if truthy concept.exampleDoc then
          explanation ++ "## Example\n```json\n" ++
            jsonStringify concept.exampleDoc 0 ++ "\n```\n\n"
        else explanation
      .ok explanation

/-- The `explain_ord_concept` operation (`handleExplainConcept` in
src/mcp-handlers.js): validate the name, then build the explanation from the
canonical key. -/
def explainConcept (concept : JVal) : Except ConceptError String := do
  let canonical ← validateConceptName concept
  buildConceptExplanation canonical

/-- The §8 sample document of the spec: one vendor and one product whose
`vendor` field references the declared vendor. -/
def sampleDoc : JVal := jobj [
  ("openResourceDiscoveryVersion", .str "1.9.0"),
  ("vendors", jarr [jobj [("ordId", .str "v:vendor:acme:v1"), ("title", .str "Acme")]]),
  ("products", jarr [jobj [("ordId", .str "v:product:p:v1"), ("title", .str "P"),
    ("shortDescription", .str "d"), ("vendor", .str "v:vendor:acme:v1")]])]

/-- A document in which two distinct, otherwise fully valid product entries
declare the same `ordId`. -/
def dupOrdIdDoc : JVal := jobj [
  ("openResourceDiscoveryVersion", .str "1.9.0"),
  ("vendors", jarr [jobj [("ordId", .str "v:vendor:acme:v1"), ("title", .str "Acme")]]),
  ("products", jarr [
    jobj [("ordId", .str "v:product:p:v1"), ("title", .str "P"),
      ("shortDescription", .str "d"), ("vendor", .str "v:vendor:acme:v1")],
    jobj [("ordId", .str "v:product:p:v1"), ("title", .str "Q"),
      ("shortDescription", .str "e"), ("vendor", .str "v:vendor:acme:v1")]])]

/-- A document whose single product references, as its vendor, an ordId that
IS declared in the document (as the product's own id) but not in the
`vendors` collection. -/
def selfVendorDoc : JVal := jobj [
  ("openResourceDiscoveryVersion", .str "1.9.0"),
  ("vendors", jarr []),
  ("products", jarr [jobj [("ordId", .str "v:product:p:v1"), ("title", .str "P"),
    ("shortDescription", .str "d"), ("vendor", .str "v:product:p:v1")]])]

/-- A document that makes phase 2 throw (`products` is a truthy non-array, so
`metadata.products.forEach` is a TypeError) after phase 1 has already pushed
a finding (the missing version property). -/
def faultingDoc : JVal := jobj [("products", .str "foo")]

/-- The value of a field of a record, `undefined` when absent or when the
record is not an object (specification-side reading). -/
def fieldLookup (m : JVal) (k : String) : JVal :=
  match m with
  | .obj fs => (fs.lookup k).getD .undef
  | _ => (.undef)

/-- The records of a named collection of the document, empty when the
collection is not an array (specification-side reading). -/
def collList (m : JVal) (name : String) : List JVal :=
  match fieldLookup m name with
  | .arr xs => xs.toList
  | _ => []

/-- Insertion-ordered set insert on strings (the `Set.add` discipline). -/
def addId (acc : List String) (s : String) : List String :=
  if acc.contains s then acc else acc ++ [s]

/-- The ordId strings of a record list, collected left to right with `Set`
semantics, starting from `acc` (only truthy string ids are collected, which
for well-formed documents is every nonempty `ordId`). -/
def collectIdsFrom (acc : List String) : List JVal → List String
  | [] => acc
  | r :: rs =>
      collectIdsFrom
        (match fieldLookup r "ordId" with
         | .str s => if s ≠ "" then addId acc s else acc
         | _ => acc) rs

/-- The ordId strings declared by one collection of the document. -/
def declaredIn (m : JVal) (name : String) : List String :=
  collectIdsFrom [] (collList m name)

/-- Every ordId string declared anywhere in the document, across all six
collections (the reading of "declared anywhere" used by the claim about
cross references). -/
def declaredAnywhere (m : JVal) : List String :=
  collectIdsFrom []
    (collList m "vendors" ++ collList m "products" ++ collList m "capabilities" ++
     collList m "apiResources" ++ collList m "eventResources" ++
     collList m "consumptionBundles")

/-- A record is an object (required for field reads not to throw). -/
def isObjRec : JVal → Bool
  | .obj _ => true
  | _ => false

/-- Field `k` of record `r` is absent or a string. -/
def strOrAbsent (r : JVal) (k : String) : Bool :=
  match fieldLookup r k with
  | .undef => true
  | .str _ => true
  | _ => false

/-- Well-formedness of a plain collection record for the cross-reference
phase: an object whose `ordId` is absent or a string. -/
def recBasicWF (r : JVal) : Bool :=
  isObjRec r && strOrAbsent r "ordId"

/-- Well-formedness of a product record: additionally, `vendor` is absent or
a string. -/
def recProductWF (r : JVal) : Bool :=
  recBasicWF r && strOrAbsent r "vendor"

/-- Well-formedness of one bundle reference entry: a string, or an object
whose `ordId` is absent or a string. -/
def refWF (x : JVal) : Bool :=
  match x with
  | .str _ => true
  | .obj _ => strOrAbsent x "ordId"
  | _ => false

/-- Well-formedness of a reference list field of a bundle: absent/falsy, or
an array of well-formed reference entries. -/
def refListWF (r : JVal) (k : String) : Bool :=
  let v := fieldLookup r k
  if truthy v then
    match v with
    | .arr xs => xs.toList.all refWF
    | _ => false
  else true

/-- Well-formedness of a consumption bundle record for the cross-reference
phase. -/
def recBundleWF (r : JVal) : Bool :=
  recBasicWF r && refListWF r "apiResources" && refListWF r "eventResources"

/-- Well-formedness of a named collection: absent/falsy, or an array whose
records satisfy `recWF`. -/
def collWF (m : JVal) (name : String) (recWF : JVal → Bool) : Bool :=
  let v := fieldLookup m name
  if truthy v then
    match v with
    | .arr xs => xs.toList.all recWF
    | _ => false
  else true

/-- Well-formedness of a whole document for the cross-reference phase: an
object whose six collections are absent or arrays of object records with
string (or absent) ids and references.  This is the shape every real ORD
document has; it rules out the inputs on which the JS code throws inside
`validateCrossReferences` or stores non-strings in its id sets. -/
def wfDoc (m : JVal) : Bool :=
  isObjRec m &&
  collWF m "vendors" recBasicWF &&
  collWF m "products" recProductWF &&
  collWF m "capabilities" recBasicWF &&
  collWF m "apiResources" recBasicWF &&
  collWF m "eventResources" recBasicWF &&
  collWF m "consumptionBundles" recBundleWF

/-- The display id `product.ordId || 'unknown'` of a well-formed record. -/
def displayId (r : JVal) : String :=
  match fieldLookup r "ordId" with
  | .str s => if s ≠ "" then s else "unknown"
  | _ => "unknown"

/-- One product record of the warnings specification: a warning exactly when
the record holds a truthy `vendor` string not among `vids`. -/
def prodWarns (ps : List JVal) (vids : List String) : List Msg :=
  ps.filterMap (fun p =>
    match fieldLookup p "vendor" with
    | .str v =>
        if v ≠ "" ∧ ¬ vids.contains v then
          some ⟨"cross_reference", none, none,
            "Product " ++ displayId p ++ " references unknown vendor: " ++ v,
            none, "warning"⟩
        else none
    | _ => none)

/-- Specification of the vendor-reference warnings of the cross-reference
phase, per the amended claim: one warning per product (in order) whose
truthy `vendor` string is not among the ordIds declared by the `vendors`
collection. -/
def vendorRefWarningsSpec (m : JVal) : List Msg :=
  prodWarns (collList m "products") (declaredIn m "vendors")

/-- The reference-id string of one bundle reference entry, `none` when the
entry carries no truthy string id. -/
def refIdStr (x : JVal) : Option String :=
  match x with
  | .str s => if s ≠ "" then some s else none
  | .obj fs =>
      match fs.lookup "ordId" with
      | some (.str s) => if s ≠ "" then some s else none
      | _ => none
  | _ => none

/-- The unresolved-reference errors of one reference list, displayed under
the bundle display string `d`. -/
def refErrsOf (refs : List JVal) (ids : List String) (d kindName : String) :
    List Msg :=
  refs.filterMap (fun ref =>
    match refIdStr ref with
    | some s =>
        if ¬ ids.contains s then
          some ⟨"cross_reference", none, none,
            "Consumption bundle " ++ d ++ " references unknown " ++
              kindName ++ " resource: " ++ s,
            none, "error"⟩
        else none
    | none => none)

/-- Specification of the unresolved-reference errors contributed by one
reference list of one bundle. -/
def bundleRefErrsSpec (b : JVal) (k : String) (ids : List String)
    (kindName : String) : List Msg :=
  refErrsOf (collList b k) ids (displayId b) kindName

/-- The unresolved-reference errors of a bundle list against the declared
API and event ids. -/
def bundlesErrs (bs : List JVal) (aids eids : List String) : List Msg :=
  bs.flatMap (fun b =>
    bundleRefErrsSpec b "apiResources" aids "API" ++
    bundleRefErrsSpec b "eventResources" eids "event")

/-- Specification of the cross-reference errors of the phase, per the
amended claim: per bundle (in order), its `apiResources` references not
declared by the `apiResources` collection, then its `eventResources`
references not declared by the `eventResources` collection. -/
def bundleRefErrorsSpec (m : JVal) : List Msg :=
  bundlesErrs (collList m "consumptionBundles") (declaredIn m "apiResources")
    (declaredIn m "eventResources")

/-- A computation that pushes no suggestion (standard-mode components). -/
def NoSugg {α : Type} (x : VOut α) : Prop := x.suggs = []

/-- Simulation relation between a standard-mode run `a` and a strict-mode run
`b` of the same code: identical outcome, errors and warnings, and the
standard run pushes no suggestions at all. -/
def SRel {α : Type} (a b : VOut α) : Prop :=
  a.res = b.res ∧ a.errs = b.errs ∧ a.warns = b.warns ∧ a.suggs = []

/-- The message of the `UnknownConcept` error: it names the unknown input
and lists every catalog key. -/
def unknownConceptMsg (n : String) : String :=
  "Unknown concept: " ++ n ++ ". Available concepts: " ++
    String.intercalate ", " conceptKeys

/-- Whether an explainer outcome is a success whose text begins with the
canonical title line followed by the Description section heading. -/
def titledExplanation (k : String) (r : Except ConceptError String) : Bool :=
  match r with
  | .ok t => ("# ORD Concept: " ++ k ++ "\n\n## Description\n").toList.isPrefixOf t.toList
  | .error _ => false

/-- The structure error pushed for a non-object metadata argument. -/
def nonObjectMsg : Msg :=
  ⟨"structure", none, none, "Metadata must be a valid JSON object", none, "error"⟩

/-- The single terminal entry the catch-branch appends. -/
def terminalMsg (e : String) : Msg :=
  ⟨"validation_error", none, none, "Validation failed: " ++ e, none, "error"⟩

/-- No two elements of the list are SameValueZero-equal (the invariant of a
JS `Set` read off in insertion order). -/
def svzNodup (l : List JVal) : Prop :=
  List.Pairwise (fun a b => jvalBeq a b = false) l

/-- `do`-notation bind on `VOut` is `vbind`. -/
theorem vout_bind_eq {α β : Type} (x : VOut α) (f : α → VOut β) :
    x >>= f = vbind x f := rfl

/-- `do`-notation pure on `VOut` is `vpure`. -/
theorem vout_pure_eq {α : Type} (a : α) : (pure a : VOut α) = vpure a := rfl

/-- Binding a pure value just continues. -/
theorem vbind_vpure {α β : Type} (a : α) (f : α → VOut β) :
    vbind (vpure a) f = f a := by
  simp [vbind, vpure]

/-- Components of a bind whose first part succeeded. -/
theorem vbind_ok {α β : Type} {x : VOut α} {a : α} (h : x.res = .ok a)
    (f : α → VOut β) :
    vbind x f = ⟨(f a).res, x.errs ++ (f a).errs, x.warns ++ (f a).warns,
      x.suggs ++ (f a).suggs⟩ := by
  simp [vbind, h]

/-- Components of a bind whose first part threw. -/
theorem vbind_err {α β : Type} {x : VOut α} {e : String} (h : x.res = .error e)
    (f : α → VOut β) :
    vbind x f = ⟨.error e, x.errs, x.warns, x.suggs⟩ := by
  simp [vbind, h]

/-- C6. For the spec §8 sample document (version 1.9.0, one vendor, one
product referencing it), `validateMetadata` with `strict = false` returns
`valid = true` and an empty `errors` sequence. -/
theorem c6_sample_document_valid :
    (validateMetadata sampleDoc false).valid = true ∧
    (validateMetadata sampleDoc false).errors = [] :=
  ⟨rfl, rfl⟩

/-- C1.  The claim is what the code comment and the push site intend, but the
implementation collects ids into `allOrdIds`, a JS `Set`, before scanning for
repeats, so the scan can never see a duplicate: on a document whose two
distinct product entries share the ordId `v:product:p:v1` the result contains
no error at all — in particular not the promised single `cross_reference`
"Duplicate ORD ID" error. -/
theorem c1_duplicate_check_unreachable :
    (collList dupOrdIdDoc "products").map (fun p => fieldLookup p "ordId") =
      [.str "v:product:p:v1", .str "v:product:p:v1"] ∧
    (validateMetadata dupOrdIdDoc false).errors = [] :=
  ⟨rfl, rfl⟩

/-- C4. The returned `valid` flag equals emptiness of the returned `errors`,
for every input and both modes: on the normal path it is assigned exactly
that value, and the catch branch sets it to `false` while appending an
error. -/
theorem c4_valid_iff_errors_empty (m : JVal) (strict : Bool) :
    (validateMetadata m strict).valid = (validateMetadata m strict).errors.isEmpty := by
  unfold validateMetadata
  cases h : (validateBody m strict).res with
  | ok _ => simp [h]
  | error e => simp [h]

/-- C2, counterexample.  Called on `null` (a non-object), `validateMetadata`
does not abort with a raised error: it returns a `ValidationResult` (the JS
function returns normally from its catch), and the failure is encoded inside
that returned result — the structure error plus the converted TypeError —
contradicting "rather than being encoded in a returned ValidationResult". -/
theorem c2_nonobject_counterexample :
    (validateMetadata .null false).valid = false ∧
    (validateMetadata .null false).errors =
      [nonObjectMsg, terminalMsg "Cannot read properties of null (reading products)"] :=
  ⟨rfl, rfl⟩

/-- C2, amended.  A non-object metadata argument does not raise across the
operation boundary; `validateMetadata` returns a result with `valid = false`
whose `errors` contain the `structure` entry "Metadata must be a valid JSON
object" (for `null`/`undefined` a converted TypeError entry follows it). -/
theorem c2_nonobject_encoded_in_result (m : JVal) (strict : Bool)
    (h : isObjectType m = false) :
    (validateMetadata m strict).valid = false ∧
    nonObjectMsg ∈ (validateMetadata m strict).errors := by
  cases m with
  | null => exact ⟨rfl, .head _⟩
  | undef => exact ⟨rfl, .head _⟩
  | bool b => exact ⟨rfl, .head _⟩
  | num n => exact ⟨rfl, .head _⟩
  | str s => exact ⟨rfl, .head _⟩
  | arr xs => simp [isObjectType] at h
  | obj fs => simp [isObjectType] at h

/-- C2, witness: the amended theorem applied at the concrete non-object
input `null` with `strict = false`. -/
theorem c2_nonobject_witness :
    (validateMetadata .null false).valid = false ∧
    nonObjectMsg ∈ (validateMetadata .null false).errors :=
  c2_nonobject_encoded_in_result .null false rfl

/-- C3. Whenever the phases throw (res is a JS error `e`), `validateMetadata`
still returns normally: the returned result keeps every error, warning and
suggestion collected before the fault and appends exactly one terminal
`validation_error` entry.  (That `validateMetadata` is a total function into
`ValidationResult` — the catch consumes every throw of the phases — is the
model of "never raises to its caller".) -/
theorem c3_fault_converted_partial_kept (m : JVal) (strict : Bool) (e : String)
    (h : (validateBody m strict).res = .error e) :
    validateMetadata m strict =
      ⟨false, (validateBody m strict).errs ++ [terminalMsg e],
       (validateBody m strict).warns, (validateBody m strict).suggs,
       if strict then "strict" else "standard"⟩ := by
  unfold validateMetadata
  simp [h, terminalMsg]

/-- C3, witness: on the document `{products: "foo"}` the structure phase
first records the missing version property, then `products.forEach` throws;
the returned result retains the earlier finding and ends with the single
converted entry. -/
theorem c3_fault_witness :
    validateMetadata faultingDoc false =
      ⟨false,
       (validateBody faultingDoc false).errs ++
         [terminalMsg "metadata.products.forEach is not a function"],
       (validateBody faultingDoc false).warns, (validateBody faultingDoc false).suggs,
       "standard"⟩ ∧
    (validateBody faultingDoc false).errs =
      [⟨"structure", none, some "openResourceDiscoveryVersion",
        "Missing required property: openResourceDiscoveryVersion", none, "error"⟩] :=
  ⟨c3_fault_converted_partial_kept faultingDoc false
    "metadata.products.forEach is not a function" rfl, rfl⟩

/-- C10. For any record field that is present but falsy: the required-field
check reports exactly the "Missing required field" error, and the rule
interpreter `validateField` applies no pattern, length or enum rule at all
(its `!rule || !value` guard returns first), so for example `title: ""`
yields a missing-field error and never a below-minimum-length error. -/
theorem c10_falsy_field_missing_no_rules (fs : JFields) (field context : String)
    (v : JVal) (hlk : JFields.lookup fs field = some v) (hv : truthy v = false) :
    validateRequiredField (.obj fs) field context =
      ⟨.ok false,
       [⟨"field_validation", some context, some field,
         "Missing required field: " ++ field, none, "error"⟩], [], []⟩ ∧
    validateField (.obj fs) field context = ⟨.ok (), [], [], []⟩ := by
  have hg : jsGetM (.obj fs) field = vpure v := by
    simp [jsGetM, jsGet, hlk]
  constructor
  · unfold validateRequiredField
    rw [vout_bind_eq, hg, vbind_vpure, hv]
    simp [vout_bind_eq, vbind, pushErr, vpure]
  · unfold validateField
    rw [vout_bind_eq, hg, vbind_vpure]
    cases hr : validationRules field with
    | none => rfl
    | some rule => simp [hv, vpure]

/-- C10, witness: the theorem applied to the record `{title: ""}` and the
field `title`. -/
theorem c10_falsy_field_witness :
    validateRequiredField (jobj [("title", .str "")]) "title" "products[0]" =
      ⟨.ok false,
       [⟨"field_validation", some "products[0]", some "title",
         "Missing required field: title", none, "error"⟩], [], []⟩ ∧
    validateField (jobj [("title", .str "")]) "title" "products[0]" =
      ⟨.ok (), [], [], []⟩ :=
  c10_falsy_field_missing_no_rules (jfields [("title", .str "")]) "title"
    "products[0]" (.str "") rfl rfl

/-- C5, counterexample.  In `selfVendorDoc` the product's `vendor` reference
equals an ordId that IS declared in the document (the product's own id), yet
the code still reports the unknown-vendor warning, because it resolves
vendor references against the `vendors` collection only — never against all
declared ids.  So "unresolved exactly when the referenced ordId was not
declared anywhere in the document" is false on the code. -/
theorem c5_declared_anywhere_counterexample :
    (declaredAnywhere selfVendorDoc).contains "v:product:p:v1" = true ∧
    (validateMetadata selfVendorDoc false).warnings =
      [⟨"cross_reference", none, none,
        "Product v:product:p:v1 references unknown vendor: v:product:p:v1",
        none, "warning"⟩] :=
  ⟨rfl, rfl⟩

/-- A string with a nonempty trim is nonempty. -/
theorem ne_empty_of_trim_ne {s : String} (h : jsTrim s ≠ "") : s ≠ "" := by
  intro he
  exact h (by rw [he]; rfl)

/-- Shape of `explainConcept` on a string whose trim is nonempty: it is
decided entirely by the case-insensitive catalog lookup. -/
theorem explainConcept_str_eq (s : String) (ht : jsTrim s ≠ "") :
    explainConcept (.str s) =
      (match conceptKeys.find?
          (fun key => jsToLowerCase key == jsToLowerCase (jsTrim s)) with
      | some k => buildConceptExplanation k
      | none => .error (.unknownConcept (unknownConceptMsg (jsTrim s)))) := by
  have hs : s ≠ "" := ne_empty_of_trim_ne ht
  unfold explainConcept validateConceptName
  simp only [truthy, isStringType, jsToString, unknownConceptMsg]
  rw [if_neg (by simp [hs])]
  rw [if_neg ht]
  cases hf : conceptKeys.find?
      (fun key => jsToLowerCase key == jsToLowerCase (jsTrim s)) with
  | some k => rfl
  | none => rfl

/-- Every catalog key resolves in the catalog. -/
theorem lookup_some_of_mem_keys (k : String) (hk : k ∈ conceptKeys) :
    ∃ e, List.lookup k ordConcepts = some e := by
  have : conceptKeys =
      ["DocumentProperties", "Product", "Package", "ConsumptionBundle",
       "APIResource", "EventResource", "EntityType", "Capability",
       "DataProduct", "Vendor", "Group", "GroupType",
       "IntegrationDependency", "Tombstone"] := by rfl
  rw [this] at hk
  fin_cases hk <;> exact ⟨_, rfl⟩

/-- `buildConceptExplanation` succeeds on every catalog key. -/
theorem buildConceptExplanation_ok (k : String) (hk : k ∈ conceptKeys) :
    ∃ t, buildConceptExplanation k = .ok t := by
  obtain ⟨e, he⟩ := lookup_some_of_mem_keys k hk
  unfold buildConceptExplanation
  rw [he]
  exact ⟨_, rfl⟩

theorem c7_explain_error_taxonomy (v : JVal) :
    ((∃ m, explainConcept v = .error (.invalidArgument m)) ↔
      ¬ ∃ s, v = .str s ∧ jsTrim s ≠ "") ∧
    (∀ s, v = .str s → jsTrim s ≠ "" →
      ((explainConcept v = .error (.unknownConcept (unknownConceptMsg (jsTrim s)))) ↔
        ∀ k ∈ conceptKeys, jsToLowerCase k ≠ jsToLowerCase (jsTrim s)) ∧
      ((∃ k ∈ conceptKeys, jsToLowerCase k = jsToLowerCase (jsTrim s)) →
        (explainConcept v).isOk = true)) ∧
    (∀ n, (unknownConceptMsg n).toList =
      ("Unknown concept: " ++ n ++ ". Available concepts: ").toList ++
      ("DocumentProperties, Product, Package, ConsumptionBundle, APIResource, EventResource, EntityType, Capability, DataProduct, Vendor, Group, GroupType, IntegrationDependency, Tombstone").toList) := by
  refine ⟨?_, ?_, ?_⟩
  · constructor
    · rintro ⟨m, hm⟩ ⟨s, rfl, htr⟩
      rw [explainConcept_str_eq s htr] at hm
      cases hf : conceptKeys.find?
          (fun key => jsToLowerCase key == jsToLowerCase (jsTrim s)) with
      | some k =>
          rw [hf] at hm
          obtain ⟨t, ht⟩ := buildConceptExplanation_ok k (List.mem_of_find?_eq_some hf)
          simp only [ht] at hm
          exact Except.noConfusion hm
      | none =>
          rw [hf] at hm
          exact ConceptError.noConfusion (Except.error.inj hm)
    · intro hno
      cases v with
      | str s =>
          have htr : jsTrim s = "" := by
            by_contra h
            exact hno ⟨s, rfl, h⟩
          by_cases hs : s = ""
          · subst hs
            exact ⟨_, rfl⟩
          · refine ⟨"Concept name cannot be empty or whitespace only", ?_⟩
            unfold explainConcept validateConceptName
            rw [if_neg (by simp [truthy, isStringType, hs])]
            simp only [jsToString]
            rw [if_pos htr]
            rfl
      | null => exact ⟨_, rfl⟩
      | undef => exact ⟨_, rfl⟩
      | bool b =>
          refine ⟨"Concept name must be a non-empty string", ?_⟩
          unfold explainConcept validateConceptName
          rw [if_pos (Or.inr (by simp [isStringType]))]
          rfl
      | num n =>
          refine ⟨"Concept name must be a non-empty string", ?_⟩
          unfold explainConcept validateConceptName
          rw [if_pos (Or.inr (by simp [isStringType]))]
          rfl
      | arr xs =>
          refine ⟨"Concept name must be a non-empty string", ?_⟩
          unfold explainConcept validateConceptName
          rw [if_pos (Or.inr (by simp [isStringType]))]
          rfl
      | obj fs =>
          refine ⟨"Concept name must be a non-empty string", ?_⟩
          unfold explainConcept validateConceptName
          rw [if_pos (Or.inr (by simp [isStringType]))]
          rfl
  · rintro s rfl htr
    rw [explainConcept_str_eq s htr]
    cases hf : conceptKeys.find?
        (fun key => jsToLowerCase key == jsToLowerCase (jsTrim s)) with
    | some k =>
        obtain ⟨t, ht⟩ := buildConceptExplanation_ok k (List.mem_of_find?_eq_some hf)
        have hpk := List.find?_some hf
        have heq : jsToLowerCase k = jsToLowerCase (jsTrim s) := by simpa using hpk
        constructor
        · simp only [ht]
          apply iff_of_false
          · simp
          · intro hall
            exact hall k (List.mem_of_find?_eq_some hf) heq
        · intro _
          simp only [ht]
          rfl
    | none =>
        constructor
        · apply iff_of_true rfl
          intro k hk
          have := List.find?_eq_none.mp hf k hk
          simpa using this
        · rintro ⟨k, hk, hmatch⟩
          have := List.find?_eq_none.mp hf k hk
          simp [hmatch] at this
  · intro n
    simp [unknownConceptMsg, conceptKeys, ordConcepts, String.toList]
    rfl

/-- C7, witness: the taxonomy theorem applied at the concrete unknown name
`NotARealConcept`, whose lookup fails with the `UnknownConcept` error
carrying the catalog listing. -/
theorem c7_unknown_witness :
    explainConcept (.str "NotARealConcept") =
      .error (.unknownConcept (unknownConceptMsg (jsTrim "NotARealConcept"))) :=
  (((c7_explain_error_taxonomy (.str "NotARealConcept")).2.1 "NotARealConcept" rfl
    (by decide)).1).mpr (by decide)

set_option maxRecDepth 8000 in
/-- The case-insensitive catalog search run on (the lowering of) a catalog
key finds exactly that key: the fourteen keys have pairwise distinct
lowerings, so matching is exact, never substring or fuzzy. -/
theorem find_key_self (k : String) (hk : k ∈ conceptKeys) :
    conceptKeys.find? (fun key => jsToLowerCase key == jsToLowerCase k) = some k := by
  have hkeys : conceptKeys =
      ["DocumentProperties", "Product", "Package", "ConsumptionBundle",
       "APIResource", "EventResource", "EntityType", "Capability",
       "DataProduct", "Vendor", "Group", "GroupType",
       "IntegrationDependency", "Tombstone"] := rfl
  rw [hkeys] at hk
  fin_cases hk <;> decide

set_option maxRecDepth 8000 in
/-- The explanation built for a catalog key starts with the canonical title
line and the Description heading. -/
theorem titled_build_key (k : String) (hk : k ∈ conceptKeys) :
    titledExplanation k (buildConceptExplanation k) = true := by
  have hkeys : conceptKeys =
      ["DocumentProperties", "Product", "Package", "ConsumptionBundle",
       "APIResource", "EventResource", "EntityType", "Capability",
       "DataProduct", "Vendor", "Group", "GroupType",
       "IntegrationDependency", "Tombstone"] := rfl
  rw [hkeys] at hk
  fin_cases hk <;> decide

theorem c8_canonical_casing_exact :
    (∀ k ∈ conceptKeys, ∀ s : String, jsTrim s ≠ "" →
      jsToLowerCase (jsTrim s) = jsToLowerCase k →
      titledExplanation k (explainConcept (.str s)) = true) ∧
    (∀ s : String, (∀ k ∈ conceptKeys, jsToLowerCase k ≠ jsToLowerCase (jsTrim s)) →
      (explainConcept (.str s)).isOk = false) := by
  constructor
  · intro k hk s htr hfold
    rw [explainConcept_str_eq s htr, hfold, find_key_self k hk]
    exact titled_build_key k hk
  · intro s hnone
    by_cases h1 : jsTrim s = ""
    · by_cases hs : s = ""
      · subst hs; decide
      · unfold explainConcept validateConceptName
        rw [if_neg (by simp [truthy, isStringType, hs])]
        simp only [jsToString]
        rw [if_pos h1]
        rfl
    · rw [explainConcept_str_eq s h1]
      cases hf : conceptKeys.find?
          (fun key => jsToLowerCase key == jsToLowerCase (jsTrim s)) with
      | some k =>
          have hpk := List.find?_some hf
          have heq : jsToLowerCase k = jsToLowerCase (jsTrim s) := by simpa using hpk
          exact absurd heq (hnone k (List.mem_of_find?_eq_some hf))
      | none => rfl

/-- C8, witness: the theorem applied at the catalog key `Product` and the
lower-case input `product`. -/
theorem c8_casing_witness :
    titledExplanation "Product" (explainConcept (.str "product")) = true :=
  c8_canonical_casing_exact.1 "Product" (by decide) "product" (by decide) (by decide)

/-- Suggestion-freeness is preserved by sequencing. -/
theorem noSugg_vbind {α β : Type} {x : VOut α} {f : α → VOut β}
    (hx : NoSugg x) (hf : ∀ a, NoSugg (f a)) : NoSugg (vbind x f) := by
  unfold NoSugg at *
  unfold vbind
  cases h : x.res with
  | error e => simpa using hx
  | ok a => simp [hx, hf a]

/-- Pure computations push no suggestion. -/
theorem noSugg_vpure {α : Type} (a : α) : NoSugg (vpure a) := rfl

/-- Error pushes push no suggestion. -/
theorem noSugg_pushErr (m : Msg) : NoSugg (pushErr m) := rfl

/-- Warning pushes push no suggestion. -/
theorem noSugg_pushWarn (m : Msg) : NoSugg (pushWarn m) := rfl

/-- Throws push no suggestion. -/
theorem noSugg_throwJs {α : Type} (e : String) : NoSugg (throwJs (α := α) e) := rfl

/-- Property reads push no suggestion. -/
theorem noSugg_jsGetM (v : JVal) (f : String) : NoSugg (jsGetM v f) := by
  unfold jsGetM
  cases jsGet v f <;> rfl

/-- Conditionals preserve suggestion-freeness. -/
theorem noSugg_ite {α : Type} {c : Prop} [Decidable c] {x y : VOut α}
    (hx : NoSugg x) (hy : NoSugg y) : NoSugg (if c then x else y) := by
  split <;> assumption

/-- `validateRequiredField` pushes no suggestion. -/
theorem noSugg_validateRequiredField (obj : JVal) (field context : String) :
    NoSugg (validateRequiredField obj field context) := by
  unfold validateRequiredField
  simp only [vout_bind_eq, vout_pure_eq]
  exact noSugg_vbind (noSugg_jsGetM _ _) (fun a =>
    noSugg_ite (noSugg_vbind (noSugg_pushErr _) (fun _ => noSugg_vpure _))
      (noSugg_vpure _))

/-- `validateField` pushes no suggestion. -/
theorem noSugg_validateField (obj : JVal) (field context : String) :
    NoSugg (validateField obj field context) := by
  unfold validateField
  simp only [vout_bind_eq, vout_pure_eq]
  refine noSugg_vbind (noSugg_jsGetM _ _) (fun a => ?_)
  cases validationRules field with
  | none => exact noSugg_vpure _
  | some rule =>
      refine noSugg_ite (noSugg_vpure _) ?_
      refine noSugg_vbind ?_ (fun _ => ?_)
      · cases rule.pat with
        | none => exact noSugg_vpure _
        | some p => exact noSugg_ite (noSugg_pushErr _) (noSugg_vpure _)
      · refine noSugg_vbind ?_ (fun _ => ?_)
        · cases rule.maxLength with
          | none => exact noSugg_vpure _
          | some k => exact noSugg_ite (noSugg_pushErr _) (noSugg_vpure _)
        · refine noSugg_vbind ?_ (fun _ => ?_)
          · cases rule.minLength with
            | none => exact noSugg_vpure _
            | some k => exact noSugg_ite (noSugg_pushErr _) (noSugg_vpure _)
          · cases rule.enumVals with
            | none => exact noSugg_vpure _
            | some es => exact noSugg_ite (noSugg_pushErr _) (noSugg_vpure _)

/-- Induction principle for `JList` (the `JList.rec` eliminator is mutual, so
the `induction` tactic cannot use it directly). -/
theorem jlist_induction {motive : JList → Prop} (hnil : motive .nil)
    (hcons : ∀ hd tl, motive tl → motive (.cons hd tl)) : ∀ l, motive l
  | .nil => hnil
  | .cons hd tl => hcons hd tl (jlist_induction hnil hcons tl)

/-- `validateEntryPoint` pushes no suggestion. -/
theorem noSugg_validateEntryPoint (ep : JVal) (context : String) :
    NoSugg (validateEntryPoint ep context) := by
  unfold validateEntryPoint
  simp only [vout_bind_eq, vout_pure_eq]
  refine noSugg_vbind (noSugg_jsGetM _ _) (fun t => ?_)
  refine noSugg_vbind (noSugg_ite (noSugg_pushErr _) (noSugg_vpure _)) (fun _ => ?_)
  exact noSugg_vbind (noSugg_jsGetM _ _)
    (fun _ => noSugg_ite (noSugg_pushErr _) (noSugg_vpure _))

/-- `validateResourceDefinition` pushes no suggestion. -/
theorem noSugg_validateResourceDefinition (d : JVal) (context rt : String) :
    NoSugg (validateResourceDefinition d context rt) := by
  unfold validateResourceDefinition
  simp only [vout_bind_eq, vout_pure_eq]
  refine noSugg_vbind (noSugg_jsGetM _ _) (fun t => ?_)
  refine noSugg_vbind (noSugg_ite (noSugg_pushErr _) (noSugg_vpure _)) (fun _ => ?_)
  refine noSugg_vbind (noSugg_jsGetM _ _) (fun _ => ?_)
  refine noSugg_vbind (noSugg_ite (noSugg_pushErr _) (noSugg_vpure _)) (fun _ => ?_)
  refine noSugg_vbind (noSugg_jsGetM _ _) (fun _ => ?_)
  refine noSugg_vbind (noSugg_jsGetM _ _) (fun _ => ?_)
  refine noSugg_vbind (noSugg_ite (noSugg_pushErr _) (noSugg_vpure _)) (fun _ => ?_)
  refine noSugg_vbind
    (noSugg_ite (noSugg_ite (noSugg_pushWarn _) (noSugg_vpure _)) (noSugg_vpure _))
    (fun _ => ?_)
  exact noSugg_ite (noSugg_ite (noSugg_pushWarn _) (noSugg_vpure _)) (noSugg_vpure _)

/-- `validateCredentialStrategy` pushes no suggestion. -/
theorem noSugg_validateCredentialStrategy (s : JVal) (context : String) :
    NoSugg (validateCredentialStrategy s context) := by
  unfold validateCredentialStrategy
  simp only [vout_bind_eq, vout_pure_eq]
  refine noSugg_vbind (noSugg_jsGetM _ _) (fun t => ?_)
  refine noSugg_vbind (noSugg_ite (noSugg_pushErr _) (noSugg_vpure _)) (fun _ => ?_)
  refine noSugg_vbind (noSugg_ite (noSugg_pushWarn _) (noSugg_vpure _)) (fun _ => ?_)
  refine noSugg_ite ?_ (noSugg_vpure _)
  exact noSugg_vbind (noSugg_jsGetM _ _)
    (fun _ => noSugg_ite (noSugg_pushErr _) (noSugg_vpure _))

/-- The labels loop pushes no suggestion. -/
theorem noSugg_labelsLoop (context : String) (l : List (String × JVal)) :
    NoSugg (labelsLoop context l) := by
  induction l with
  | nil => exact noSugg_vpure _
  | cons kv rest ih =>
      exact noSugg_vbind (noSugg_ite (noSugg_pushErr _) (noSugg_vpure _)) (fun _ => ih)

/-- `validateLabels` pushes no suggestion. -/
theorem noSugg_validateLabels (labels : JVal) (context : String) :
    NoSugg (validateLabels labels context) := by
  unfold validateLabels
  exact noSugg_ite (noSugg_pushErr _) (noSugg_labelsLoop _ _)

/-- `validateStructure` pushes no suggestion. -/
theorem noSugg_validateStructure (m : JVal) : NoSugg (validateStructure m) := by
  unfold validateStructure
  refine noSugg_ite (noSugg_pushErr _) ?_
  simp only [vout_bind_eq, vout_pure_eq]
  refine noSugg_vbind (noSugg_jsGetM _ _) (fun v => ?_)
  refine noSugg_vbind (noSugg_ite (noSugg_pushErr _) (noSugg_vpure _)) (fun _ => ?_)
  refine noSugg_vbind
    (noSugg_ite (noSugg_ite (noSugg_pushErr _) (noSugg_vpure _)) (noSugg_vpure _))
    (fun _ => ?_)
  refine noSugg_vbind (noSugg_jsGetM _ _) (fun _ => ?_)
  refine noSugg_vbind (noSugg_jsGetM _ _) (fun _ => ?_)
  refine noSugg_vbind (noSugg_jsGetM _ _) (fun _ => ?_)
  refine noSugg_vbind (noSugg_jsGetM _ _) (fun _ => ?_)
  exact noSugg_ite (noSugg_pushWarn _) (noSugg_vpure _)

/-- The per-element iteration pushes no suggestion when its body never
does. -/
theorem noSugg_jsForEachList (body : JVal → Nat → VOut Unit)
    (hbody : ∀ x i, NoSugg (body x i)) (xs : JList) :
    ∀ i, NoSugg (jsForEachFrom.jsForEachList body xs i) := by
  induction xs using jlist_induction with
  | hnil => intro i; exact noSugg_vpure _
  | hcons x rest ih =>
      intro i
      exact noSugg_vbind (hbody x i) (fun _ => ih _)

/-- `forEach` pushes no suggestion when its body never does. -/
theorem noSugg_jsForEach (body : JVal → Nat → VOut Unit) (label : String)
    (v : JVal) (hbody : ∀ x i, NoSugg (body x i)) :
    NoSugg (jsForEach body label v) := by
  unfold jsForEach jsForEachFrom
  cases v with
  | arr xs => exact noSugg_jsForEachList body hbody xs 0
  | null => exact noSugg_throwJs _
  | undef => exact noSugg_throwJs _
  | bool b => exact noSugg_throwJs _
  | num n => exact noSugg_throwJs _
  | str s => exact noSugg_throwJs _
  | obj fs => exact noSugg_throwJs _

/-- `validateCapability` pushes no suggestion. -/
theorem noSugg_validateCapability (c : JVal) (i : Nat) (strict : Bool) :
    NoSugg (validateCapability c i strict) := by
  unfold validateCapability
  simp only [vout_bind_eq, vout_pure_eq]
  refine noSugg_vbind (noSugg_validateRequiredField _ _ _) (fun _ => ?_)
  refine noSugg_vbind (noSugg_validateRequiredField _ _ _) (fun _ => ?_)
  refine noSugg_vbind (noSugg_validateRequiredField _ _ _) (fun _ => ?_)
  refine noSugg_vbind (noSugg_validateRequiredField _ _ _) (fun _ => ?_)
  refine noSugg_vbind (noSugg_validateField _ _ _) (fun _ => ?_)
  refine noSugg_vbind (noSugg_validateField _ _ _) (fun _ => ?_)
  refine noSugg_vbind (noSugg_validateField _ _ _) (fun _ => ?_)
  refine noSugg_vbind (noSugg_jsGetM _ _) (fun t => ?_)
  refine noSugg_ite ?_ (noSugg_vpure _)
  exact noSugg_vbind (noSugg_jsGetM _ _)
    (fun _ => noSugg_ite (noSugg_pushWarn _) (noSugg_vpure _))

/-- `validateConsumptionBundle` pushes no suggestion. -/
theorem noSugg_validateConsumptionBundle (b : JVal) (i : Nat) (strict : Bool) :
    NoSugg (validateConsumptionBundle b i strict) := by
  unfold validateConsumptionBundle
  simp only [vout_bind_eq, vout_pure_eq]
  refine noSugg_vbind (noSugg_validateRequiredField _ _ _) (fun _ => ?_)
  refine noSugg_vbind (noSugg_validateRequiredField _ _ _) (fun _ => ?_)
  refine noSugg_vbind (noSugg_validateRequiredField _ _ _) (fun _ => ?_)
  refine noSugg_vbind (noSugg_validateRequiredField _ _ _) (fun _ => ?_)
  refine noSugg_vbind (noSugg_validateField _ _ _) (fun _ => ?_)
  refine noSugg_vbind (noSugg_validateField _ _ _) (fun _ => ?_)
  refine noSugg_vbind (noSugg_validateField _ _ _) (fun _ => ?_)
  refine noSugg_vbind (noSugg_jsGetM _ _) (fun ces => ?_)
  refine noSugg_vbind
    (noSugg_ite
      (noSugg_ite (noSugg_pushErr _)
        (noSugg_jsForEach _ _ _ (fun x i => noSugg_validateCredentialStrategy _ _)))
      (noSugg_vpure _))
    (fun _ => ?_)
  refine noSugg_vbind (noSugg_jsGetM _ _) (fun _ => ?_)
  refine noSugg_vbind (noSugg_jsGetM _ _) (fun _ => ?_)
  exact noSugg_ite (noSugg_pushWarn _) (noSugg_vpure _)

/-- `validateVendor` pushes no suggestion. -/
theorem noSugg_validateVendor (v : JVal) (i : Nat) (strict : Bool) :
    NoSugg (validateVendor v i strict) := by
  unfold validateVendor
  simp only [vout_bind_eq, vout_pure_eq]
  refine noSugg_vbind (noSugg_validateRequiredField _ _ _) (fun _ => ?_)
  refine noSugg_vbind (noSugg_validateRequiredField _ _ _) (fun _ => ?_)
  refine noSugg_vbind (noSugg_validateField _ _ _) (fun _ => ?_)
  exact noSugg_validateField _ _ _

/-- The vendor-collection loop pushes no suggestion. -/
theorem noSugg_crossVendorsLoop (xs : JList) :
    ∀ st, NoSugg (crossVendorsLoop xs st) := by
  induction xs using jlist_induction with
  | hnil => intro st; exact noSugg_vpure _
  | hcons x rest ih =>
      intro st
      exact noSugg_vbind (noSugg_jsGetM _ _) (fun _ => ih _)

/-- The product loop pushes no suggestion (it pushes warnings only). -/
theorem noSugg_crossProductsLoop (xs : JList) :
    ∀ st, NoSugg (crossProductsLoop xs st) := by
  induction xs using jlist_induction with
  | hnil => intro st; exact noSugg_vpure _
  | hcons x rest ih =>
      intro st
      refine noSugg_vbind (noSugg_jsGetM _ _) (fun _ => ?_)
      refine noSugg_vbind (noSugg_jsGetM _ _) (fun _ => ?_)
      exact noSugg_vbind (noSugg_ite (noSugg_pushWarn _) (noSugg_vpure _)) (fun _ => ih _)

/-- The capability-collection loop pushes no suggestion. -/
theorem noSugg_crossCapabilitiesLoop (xs : JList) :
    ∀ st, NoSugg (crossCapabilitiesLoop xs st) := by
  induction xs using jlist_induction with
  | hnil => intro st; exact noSugg_vpure _
  | hcons x rest ih =>
      intro st
      exact noSugg_vbind (noSugg_jsGetM _ _) (fun _ => ih _)

/-- The API-collection loop pushes no suggestion. -/
theorem noSugg_crossApisLoop (xs : JList) :
    ∀ st, NoSugg (crossApisLoop xs st) := by
  induction xs using jlist_induction with
  | hnil => intro st; exact noSugg_vpure _
  | hcons x rest ih =>
      intro st
      exact noSugg_vbind (noSugg_jsGetM _ _) (fun _ => ih _)

/-- The event-collection loop pushes no suggestion. -/
theorem noSugg_crossEventsLoop (xs : JList) :
    ∀ st, NoSugg (crossEventsLoop xs st) := by
  induction xs using jlist_induction with
  | hnil => intro st; exact noSugg_vpure _
  | hcons x rest ih =>
      intro st
      exact noSugg_vbind (noSugg_jsGetM _ _) (fun _ => ih _)

/-- `refIdOf` pushes no suggestion. -/
theorem noSugg_refIdOf (ref : JVal) : NoSugg (refIdOf ref) := by
  unfold refIdOf
  exact noSugg_ite (noSugg_vpure _) (noSugg_jsGetM _ _)

/-- The bundle reference loop pushes no suggestion. -/
theorem noSugg_crossBundleRefsLoop (ids : List JVal) (oid : JVal)
    (kindName : String) (xs : JList) :
    NoSugg (crossBundleRefsLoop ids oid kindName xs) := by
  induction xs using jlist_induction with
  | hnil => exact noSugg_vpure _
  | hcons x rest ih =>
      refine noSugg_vbind (noSugg_refIdOf _) (fun _ => ?_)
      exact noSugg_vbind (noSugg_ite (noSugg_pushErr _) (noSugg_vpure _)) (fun _ => ih)

/-- The bundle loop pushes no suggestion. -/
theorem noSugg_crossBundlesLoop (xs : JList) :
    ∀ st, NoSugg (crossBundlesLoop xs st) := by
  induction xs using jlist_induction with
  | hnil => intro st; exact noSugg_vpure _
  | hcons x rest ih =>
      intro st
      refine noSugg_vbind (noSugg_jsGetM _ _) (fun _ => ?_)
      refine noSugg_vbind (noSugg_jsGetM _ _) (fun ar => ?_)
      refine noSugg_vbind ?_ (fun _ => ?_)
      · refine noSugg_ite ?_ (noSugg_vpure _)
        cases ar with
        | arr ys => exact noSugg_crossBundleRefsLoop _ _ _ _
        | null => exact noSugg_throwJs _
        | undef => exact noSugg_throwJs _
        | bool b2 => exact noSugg_throwJs _
        | num n2 => exact noSugg_throwJs _
        | str s2 => exact noSugg_throwJs _
        | obj fs2 => exact noSugg_throwJs _
      · refine noSugg_vbind (noSugg_jsGetM _ _) (fun er => ?_)
        refine noSugg_vbind ?_ (fun _ => ih _)
        refine noSugg_ite ?_ (noSugg_vpure _)
        cases er with
        | arr ys => exact noSugg_crossBundleRefsLoop _ _ _ _
        | null => exact noSugg_throwJs _
        | undef => exact noSugg_throwJs _
        | bool b2 => exact noSugg_throwJs _
        | num n2 => exact noSugg_throwJs _
        | str s2 => exact noSugg_throwJs _
        | obj fs2 => exact noSugg_throwJs _

/-- The duplicate scan pushes no suggestion. -/
theorem noSugg_dupLoop (ids : List JVal) : ∀ seen, NoSugg (dupLoop ids seen) := by
  induction ids with
  | nil => intro seen; exact noSugg_vpure _
  | cons x rest ih =>
      intro seen
      unfold dupLoop
      split
      · exact noSugg_vbind (noSugg_pushErr _) (fun _ => ih _)
      · exact ih _

/-- A collection step pushes no suggestion when its loop never does. -/
theorem noSugg_crossColl (loop : JList → CrossState → VOut CrossState)
    (hloop : ∀ xs st, NoSugg (loop xs st)) (label : String) (v : JVal)
    (st : CrossState) : NoSugg (crossColl loop label v st) := by
  unfold crossColl
  refine noSugg_ite ?_ (noSugg_vpure _)
  cases v with
  | arr xs => exact hloop xs st
  | null => exact noSugg_throwJs _
  | undef => exact noSugg_throwJs _
  | bool b => exact noSugg_throwJs _
  | num n => exact noSugg_throwJs _
  | str s => exact noSugg_throwJs _
  | obj fs => exact noSugg_throwJs _

/-- `validateCrossReferences` pushes no suggestion. -/
theorem noSugg_validateCrossReferences (m : JVal) :
    NoSugg (validateCrossReferences m) := by
  unfold validateCrossReferences
  simp only [vout_bind_eq, vout_pure_eq]
  refine noSugg_vbind (noSugg_jsGetM _ _) (fun vs => ?_)
  refine noSugg_vbind (noSugg_crossColl _ noSugg_crossVendorsLoop _ _ _) (fun st1 => ?_)
  refine noSugg_vbind (noSugg_jsGetM _ _) (fun ps => ?_)
  refine noSugg_vbind (noSugg_crossColl _ noSugg_crossProductsLoop _ _ _) (fun st2 => ?_)
  refine noSugg_vbind (noSugg_jsGetM _ _) (fun cs => ?_)
  refine noSugg_vbind (noSugg_crossColl _ noSugg_crossCapabilitiesLoop _ _ _) (fun st3 => ?_)
  refine noSugg_vbind (noSugg_jsGetM _ _) (fun ars => ?_)
  refine noSugg_vbind (noSugg_crossColl _ noSugg_crossApisLoop _ _ _) (fun st4 => ?_)
  refine noSugg_vbind (noSugg_jsGetM _ _) (fun ers => ?_)
  refine noSugg_vbind (noSugg_crossColl _ noSugg_crossEventsLoop _ _ _) (fun st5 => ?_)
  refine noSugg_vbind (noSugg_jsGetM _ _) (fun cbs => ?_)
  refine noSugg_vbind (noSugg_crossColl _ noSugg_crossBundlesLoop _ _ _) (fun st6 => ?_)
  exact noSugg_dupLoop _ _

/-- A suggestion-free computation simulates itself. -/
theorem srel_of_noSugg {α : Type} {x : VOut α} (h : NoSugg x) : SRel x x :=
  ⟨rfl, rfl, rfl, h⟩

/-- The simulation relation is preserved by sequencing. -/
theorem srel_vbind {α β : Type} {a b : VOut α} {f g : α → VOut β}
    (hab : SRel a b) (hfg : ∀ x, SRel (f x) (g x)) :
    SRel (vbind a f) (vbind b g) := by
  obtain ⟨hres, herr, hwarn, hsugg⟩ := hab
  unfold SRel vbind
  cases h : a.res with
  | error e =>
      have hb : b.res = .error e := hres ▸ h
      simp [h, hb, herr, hwarn, hsugg]
  | ok x =>
      have hb : b.res = .ok x := hres ▸ h
      obtain ⟨hres2, herr2, hwarn2, hsugg2⟩ := hfg x
      simp [h, hb, herr, hwarn, hsugg, hres2, herr2, hwarn2, hsugg2]

/-- The simulation relation is preserved by a shared conditional. -/
theorem srel_ite {α : Type} {c : Prop} [Decidable c] {x x2 y y2 : VOut α}
    (hx : SRel x x2) (hy : SRel y y2) :
    SRel (if c then x else y) (if c then x2 else y2) := by
  split <;> assumption

/-- Doing nothing is simulated by a single suggestion push. -/
theorem srel_vpure_pushSugg (m : Msg) : SRel (vpure ()) (pushSugg m) :=
  ⟨rfl, rfl, rfl, rfl⟩

/-- A suggestion push whose standard-mode gate is off is the whole difference
between the two modes: the standard side does nothing, the strict side
possibly pushes one suggestion. -/
theorem srel_gated {c1 c2 : Prop} [Decidable c1] [Decidable c2] (h1 : ¬ c1)
    (m : Msg) :
    SRel (if c1 then pushSugg m else vpure ())
      (if c2 then pushSugg m else vpure ()) := by
  rw [if_neg h1]
  split
  · exact srel_vpure_pushSugg m
  · exact srel_of_noSugg (noSugg_vpure _)

/-- `validateProduct` in standard mode is simulated by strict mode. -/
theorem srel_validateProduct (p : JVal) (i : Nat) :
    SRel (validateProduct p i false) (validateProduct p i true) := by
  unfold validateProduct
  simp only [vout_bind_eq, vout_pure_eq]
  refine srel_vbind (srel_of_noSugg (noSugg_validateRequiredField _ _ _)) (fun _ => ?_)
  refine srel_vbind (srel_of_noSugg (noSugg_validateRequiredField _ _ _)) (fun _ => ?_)
  refine srel_vbind (srel_of_noSugg (noSugg_validateRequiredField _ _ _)) (fun _ => ?_)
  refine srel_vbind (srel_of_noSugg (noSugg_validateRequiredField _ _ _)) (fun _ => ?_)
  refine srel_vbind (srel_of_noSugg (noSugg_validateField _ _ _)) (fun _ => ?_)
  refine srel_vbind (srel_of_noSugg (noSugg_validateField _ _ _)) (fun _ => ?_)
  refine srel_vbind (srel_of_noSugg (noSugg_validateField _ _ _)) (fun _ => ?_)
  refine srel_vbind (srel_of_noSugg (noSugg_jsGetM _ _)) (fun desc => ?_)
  refine srel_vbind (srel_gated (by simp) _) (fun _ => ?_)
  refine srel_vbind (srel_of_noSugg (noSugg_jsGetM _ _)) (fun labels => ?_)
  exact srel_of_noSugg (noSugg_ite (noSugg_validateLabels _ _) (noSugg_vpure _))

/-- `validateApiResource` in standard mode is simulated by strict mode. -/
theorem srel_validateApiResource (a : JVal) (i : Nat) :
    SRel (validateApiResource a i false) (validateApiResource a i true) := by
  unfold validateApiResource
  simp only [vout_bind_eq, vout_pure_eq]
  refine srel_vbind (srel_of_noSugg (noSugg_validateRequiredField _ _ _)) (fun _ => ?_)
  refine srel_vbind (srel_of_noSugg (noSugg_validateRequiredField _ _ _)) (fun _ => ?_)
  refine srel_vbind (srel_of_noSugg (noSugg_validateRequiredField _ _ _)) (fun _ => ?_)
  refine srel_vbind (srel_of_noSugg (noSugg_validateRequiredField _ _ _)) (fun _ => ?_)
  refine srel_vbind (srel_of_noSugg (noSugg_validateField _ _ _)) (fun _ => ?_)
  refine srel_vbind (srel_of_noSugg (noSugg_validateField _ _ _)) (fun _ => ?_)
  refine srel_vbind (srel_of_noSugg (noSugg_validateField _ _ _)) (fun _ => ?_)
  refine srel_vbind (srel_of_noSugg (noSugg_validateField _ _ _)) (fun _ => ?_)
  refine srel_vbind (srel_of_noSugg (noSugg_jsGetM _ _)) (fun eps => ?_)
  refine srel_vbind
    (srel_of_noSugg (noSugg_ite (noSugg_pushErr _)
      (noSugg_jsForEach _ _ _ (fun x i => noSugg_validateEntryPoint _ _))))
    (fun _ => ?_)
  refine srel_vbind (srel_of_noSugg (noSugg_jsGetM _ _)) (fun rd => ?_)
  refine srel_ite
    (srel_of_noSugg
      (noSugg_jsForEach _ _ _ (fun x i => noSugg_validateResourceDefinition _ _ _)))
    ?_
  exact srel_gated (by simp) _

/-- `validateEventResource` in standard mode is simulated by strict mode. -/
theorem srel_validateEventResource (e : JVal) (i : Nat) :
    SRel (validateEventResource e i false) (validateEventResource e i true) := by
  unfold validateEventResource
  simp only [vout_bind_eq, vout_pure_eq]
  refine srel_vbind (srel_of_noSugg (noSugg_validateRequiredField _ _ _)) (fun _ => ?_)
  refine srel_vbind (srel_of_noSugg (noSugg_validateRequiredField _ _ _)) (fun _ => ?_)
  refine srel_vbind (srel_of_noSugg (noSugg_validateRequiredField _ _ _)) (fun _ => ?_)
  refine srel_vbind (srel_of_noSugg (noSugg_validateRequiredField _ _ _)) (fun _ => ?_)
  refine srel_vbind (srel_of_noSugg (noSugg_validateField _ _ _)) (fun _ => ?_)
  refine srel_vbind (srel_of_noSugg (noSugg_validateField _ _ _)) (fun _ => ?_)
  refine srel_vbind (srel_of_noSugg (noSugg_validateField _ _ _)) (fun _ => ?_)
  refine srel_vbind (srel_of_noSugg (noSugg_validateField _ _ _)) (fun _ => ?_)
  refine srel_vbind (srel_of_noSugg (noSugg_jsGetM _ _)) (fun rd => ?_)
  refine srel_ite
    (srel_of_noSugg
      (noSugg_jsForEach _ _ _ (fun x i => noSugg_validateResourceDefinition _ _ _)))
    ?_
  exact srel_gated (by simp) _

/-- Iteration preserves the simulation relation. -/
theorem srel_jsForEachList {body1 body2 : JVal → Nat → VOut Unit}
    (h : ∀ x i, SRel (body1 x i) (body2 x i)) (xs : JList) :
    ∀ i, SRel (jsForEachFrom.jsForEachList body1 xs i)
      (jsForEachFrom.jsForEachList body2 xs i) := by
  induction xs using jlist_induction with
  | hnil => intro i; exact srel_of_noSugg (noSugg_vpure _)
  | hcons x rest ih =>
      intro i
      exact srel_vbind (h x i) (fun _ => ih _)

/-- `forEach` preserves the simulation relation. -/
theorem srel_jsForEach {body1 body2 : JVal → Nat → VOut Unit} (label : String)
    (v : JVal) (h : ∀ x i, SRel (body1 x i) (body2 x i)) :
    SRel (jsForEach body1 label v) (jsForEach body2 label v) := by
  unfold jsForEach jsForEachFrom
  cases v with
  | arr xs => exact srel_jsForEachList h xs 0
  | null => exact srel_of_noSugg (noSugg_throwJs _)
  | undef => exact srel_of_noSugg (noSugg_throwJs _)
  | bool b => exact srel_of_noSugg (noSugg_throwJs _)
  | num n => exact srel_of_noSugg (noSugg_throwJs _)
  | str s => exact srel_of_noSugg (noSugg_throwJs _)
  | obj fs => exact srel_of_noSugg (noSugg_throwJs _)

/-- The whole try-block body in standard mode is simulated by strict mode:
same outcome, same errors, same warnings, and the standard run pushes no
suggestion. -/
theorem srel_validateBody (m : JVal) :
    SRel (validateBody m false) (validateBody m true) := by
  unfold validateBody
  simp only [vout_bind_eq, vout_pure_eq]
  refine srel_vbind (srel_of_noSugg (noSugg_validateStructure m)) (fun _ => ?_)
  refine srel_vbind (srel_of_noSugg (noSugg_jsGetM _ _)) (fun ps => ?_)
  refine srel_vbind
    (srel_ite (srel_jsForEach _ _ srel_validateProduct)
      (srel_of_noSugg (noSugg_vpure _)))
    (fun _ => ?_)
  refine srel_vbind (srel_of_noSugg (noSugg_jsGetM _ _)) (fun cs => ?_)
  refine srel_vbind
    (srel_ite
      (srel_jsForEach _ _ (fun c i => srel_of_noSugg (noSugg_validateCapability c i false)))
      (srel_of_noSugg (noSugg_vpure _)))
    (fun _ => ?_)
  refine srel_vbind (srel_of_noSugg (noSugg_jsGetM _ _)) (fun ars => ?_)
  refine srel_vbind
    (srel_ite (srel_jsForEach _ _ srel_validateApiResource)
      (srel_of_noSugg (noSugg_vpure _)))
    (fun _ => ?_)
  refine srel_vbind (srel_of_noSugg (noSugg_jsGetM _ _)) (fun ers => ?_)
  refine srel_vbind
    (srel_ite (srel_jsForEach _ _ srel_validateEventResource)
      (srel_of_noSugg (noSugg_vpure _)))
    (fun _ => ?_)
  refine srel_vbind (srel_of_noSugg (noSugg_jsGetM _ _)) (fun cbs => ?_)
  refine srel_vbind
    (srel_ite
      (srel_jsForEach _ _
        (fun b i => srel_of_noSugg (noSugg_validateConsumptionBundle b i false)))
      (srel_of_noSugg (noSugg_vpure _)))
    (fun _ => ?_)
  refine srel_vbind (srel_of_noSugg (noSugg_jsGetM _ _)) (fun vs => ?_)
  refine srel_vbind
    (srel_ite
      (srel_jsForEach _ _ (fun v i => srel_of_noSugg (noSugg_validateVendor v i false)))
      (srel_of_noSugg (noSugg_vpure _)))
    (fun _ => ?_)
  exact srel_of_noSugg (noSugg_validateCrossReferences m)

/-- C9. Strict mode reports a superset of standard mode on every input: the
errors and warnings of the two modes are identical, and standard mode emits
no suggestions at all — so every finding of the standard run appears in the
strict run, and strict mode can only add suggestions. -/
theorem c9_strict_superset_of_standard (m : JVal) :
    (validateMetadata m true).errors = (validateMetadata m false).errors ∧
    (validateMetadata m true).warnings = (validateMetadata m false).warnings ∧
    (validateMetadata m false).suggestions = [] := by
  obtain ⟨hres, herr, hwarn, hsugg⟩ := srel_validateBody m
  unfold validateMetadata
  cases h : (validateBody m false).res with
  | ok x =>
      have hb : (validateBody m true).res = .ok x := hres ▸ h
      simp [h, hb, herr, hwarn, hsugg]
  | error e =>
      have hb : (validateBody m true).res = .error e := hres ▸ h
      simp [h, hb, herr, hwarn, hsugg]

/-- Set membership over string images is list containment. -/
theorem svzMem_map_str (l : List String) (s : String) :
    svzMem (l.map JVal.str) (.str s) = l.contains s := by
  induction l with
  | nil => rfl
  | cons a rest ih =>
      simp only [List.map_cons, svzMem, List.any_cons] at *
      simp [jvalBeq, ih, svzMem]
      rcases eq_or_ne a s with rfl | h
      · simp
      · simp [h, Ne.symm h]

/-- Set insertion over string images is `addId`. -/
theorem svzAdd_map_str (l : List String) (s : String) :
    svzAdd (l.map JVal.str) (.str s) = (addId l s).map JVal.str := by
  unfold svzAdd addId
  rw [svzMem_map_str]
  by_cases h : s ∈ l <;> simp [h]

/-- Inserting into a set without SVZ duplicates keeps it duplicate-free. -/
theorem svzAdd_nodup {l : List JVal} (h : svzNodup l) (v : JVal) :
    svzNodup (svzAdd l v) := by
  unfold svzAdd
  by_cases hm : svzMem l v = true
  · simp [hm, h]
  · rw [if_neg hm]
    unfold svzNodup at *
    rw [List.pairwise_append]
    refine ⟨h, List.pairwise_singleton _ _, ?_⟩
    intro a ha b hb
    rw [List.mem_singleton] at hb
    rw [hb]
    have : ¬ (svzMem l v = true) := hm
    unfold svzMem at this
    rw [List.any_eq_true] at this
    push_neg at this
    have h2 := this a ha
    simpa using h2

/-- The duplicate scan of `validateCrossReferences` finds nothing on a list
without SVZ duplicates (which every `allOrdIds` Set is by construction):
it returns with no finding at all. -/
theorem dupLoop_nodup :
    ∀ (l : List JVal), svzNodup l →
    ∀ (seen : List JVal), (∀ x ∈ l, svzMem seen x = false) →
    dupLoop l seen = vpure () := by
  intro l
  induction l with
  | nil => intro _ seen _; rfl
  | cons x rest ih =>
      intro hnd seen hdisj
      unfold dupLoop
      rw [if_neg (by simp [hdisj x (List.mem_cons_self x rest)])]
      rcases List.pairwise_cons.mp hnd with ⟨hx, hrest⟩
      refine ih hrest (svzAdd seen x) ?_
      intro y hy
      unfold svzAdd
      rw [if_neg (by simp [hdisj x (List.mem_cons_self x rest)])]
      unfold svzMem
      rw [List.any_append]
      have h1 : svzMem seen y = false := hdisj y (List.mem_cons_of_mem x hy)
      unfold svzMem at h1
      simp [h1, hx y hy]

/-- Reading a field of an object never throws and yields `fieldLookup`. -/
theorem jsGetM_obj (fs : JFields) (k : String) :
    jsGetM (.obj fs) k = vpure (fieldLookup (.obj fs) k) := by
  unfold jsGetM jsGet fieldLookup
  cases h : JFields.lookup fs k <;> simp [h]

/-- `JList.toList` of a cons. -/
theorem jlist_toList_cons (x : JVal) (xs : JList) :
    (JList.cons x xs).toList = x :: xs.toList := rfl

/-- The vendors collection loop: on well-formed records it returns normally
with no finding, extending `vendorIds` by exactly the set-collected ordId
strings of the records, and preserving the other id sets and the
no-duplicates invariant of `allOrdIds`. -/
theorem crossVendorsLoop_spec (xs : JList) :
    ∀ (st : CrossState) (acc : List String),
    xs.toList.all recBasicWF = true →
    st.vendorIds = acc.map JVal.str →
    ∃ all2,
      crossVendorsLoop xs st =
        vpure { st with vendorIds := (collectIdsFrom acc xs.toList).map JVal.str,
                        allOrdIds := all2 } ∧
      (svzNodup st.allOrdIds → svzNodup all2) := by
  induction xs using jlist_induction with
  | hnil =>
      intro st acc _ hv
      refine ⟨st.allOrdIds, ?_, fun h => h⟩
      unfold crossVendorsLoop
      cases st
      simp_all [JList.toList, collectIdsFrom, vpure]
  | hcons vendor rest ih =>
      intro st acc hwf hv
      rw [jlist_toList_cons, List.all_cons] at hwf
      simp only [Bool.and_eq_true] at hwf
      obtain ⟨hr, hrest⟩ := hwf
      unfold recBasicWF at hr
      simp only [Bool.and_eq_true] at hr
      obtain ⟨hobj, hstr⟩ := hr
      cases vendor with
      | obj fs =>
          unfold crossVendorsLoop
          rw [jsGetM_obj, vbind_vpure]
          unfold strOrAbsent at hstr
          cases hlk : fieldLookup (JVal.obj fs) "ordId" with
          | undef =>
              obtain ⟨all2, heq, hnd⟩ := ih st acc hrest hv
              refine ⟨all2, ?_, hnd⟩
              simp only [jlist_toList_cons, collectIdsFrom, hlk, truthy]
              simpa using heq
          | str s =>
              by_cases hs : s = ""
              · subst hs
                obtain ⟨all2, heq, hnd⟩ := ih st acc hrest hv
                refine ⟨all2, ?_, hnd⟩
                simp only [jlist_toList_cons, collectIdsFrom, hlk, truthy]
                simpa using heq
              · have htr : truthy (JVal.str s) = true := by simp [truthy, hs]
                rw [if_pos htr]
                obtain ⟨all2, heq, hnd⟩ :=
                  ih { st with vendorIds := svzAdd st.vendorIds (.str s),
                               allOrdIds := svzAdd st.allOrdIds (.str s) }
                    (addId acc s) hrest
                    (by simp only [hv]; exact svzAdd_map_str acc s)
                refine ⟨all2, ?_, fun h => hnd (svzAdd_nodup h _)⟩
                rw [heq]
                simp only [jlist_toList_cons, collectIdsFrom, hlk]
                rw [if_pos hs]
          | null => rw [hlk] at hstr; simp at hstr
          | bool b => rw [hlk] at hstr; simp at hstr
          | num n => rw [hlk] at hstr; simp at hstr
          | arr ys => rw [hlk] at hstr; simp at hstr
          | obj fs2 => rw [hlk] at hstr; simp at hstr
      | null => simp [isObjRec] at hobj
      | undef => simp [isObjRec] at hobj
      | bool b => simp [isObjRec] at hobj
      | num n => simp [isObjRec] at hobj
      | str s => simp [isObjRec] at hobj
      | arr ys => simp [isObjRec] at hobj

/-- The capabilities collection loop: on well-formed records it returns normally
with no finding, extending `capabilityIds` by exactly the set-collected ordId
strings of the records, and preserving the other id sets and the
no-duplicates invariant of `allOrdIds`. -/
theorem crossCapabilitiesLoop_spec (xs : JList) :
    ∀ (st : CrossState) (acc : List String),
    xs.toList.all recBasicWF = true →
    st.capabilityIds = acc.map JVal.str →
    ∃ all2,
      crossCapabilitiesLoop xs st =
        vpure { st with capabilityIds := (collectIdsFrom acc xs.toList).map JVal.str,
                        allOrdIds := all2 } ∧
      (svzNodup st.allOrdIds → svzNodup all2) := by
  induction xs using jlist_induction with
  | hnil =>
      intro st acc _ hv
      refine ⟨st.allOrdIds, ?_, fun h => h⟩
      unfold crossCapabilitiesLoop
      cases st
      simp_all [JList.toList, collectIdsFrom, vpure]
  | hcons record rest ih =>
      intro st acc hwf hv
      rw [jlist_toList_cons, List.all_cons] at hwf
      simp only [Bool.and_eq_true] at hwf
      obtain ⟨hr, hrest⟩ := hwf
      unfold recBasicWF at hr
      simp only [Bool.and_eq_true] at hr
      obtain ⟨hobj, hstr⟩ := hr
      cases record with
      | obj fs =>
          unfold crossCapabilitiesLoop
          rw [jsGetM_obj, vbind_vpure]
          unfold strOrAbsent at hstr
          cases hlk : fieldLookup (JVal.obj fs) "ordId" with
          | undef =>
              obtain ⟨all2, heq, hnd⟩ := ih st acc hrest hv
              refine ⟨all2, ?_, hnd⟩
              simp only [jlist_toList_cons, collectIdsFrom, hlk, truthy]
              simpa using heq
          | str s =>
              by_cases hs : s = ""
              · subst hs
                obtain ⟨all2, heq, hnd⟩ := ih st acc hrest hv
                refine ⟨all2, ?_, hnd⟩
                simp only [jlist_toList_cons, collectIdsFrom, hlk, truthy]
                simpa using heq
              · have htr : truthy (JVal.str s) = true := by simp [truthy, hs]
                rw [if_pos htr]
                obtain ⟨all2, heq, hnd⟩ :=
                  ih { st with capabilityIds := svzAdd st.capabilityIds (.str s),
                               allOrdIds := svzAdd st.allOrdIds (.str s) }
                    (addId acc s) hrest
                    (by simp only [hv]; exact svzAdd_map_str acc s)
                refine ⟨all2, ?_, fun h => hnd (svzAdd_nodup h _)⟩
                rw [heq]
                simp only [jlist_toList_cons, collectIdsFrom, hlk]
                rw [if_pos hs]
          | null => rw [hlk] at hstr; simp at hstr
          | bool b => rw [hlk] at hstr; simp at hstr
          | num n => rw [hlk] at hstr; simp at hstr
          | arr ys => rw [hlk] at hstr; simp at hstr
          | obj fs2 => rw [hlk] at hstr; simp at hstr
      | null => simp [isObjRec] at hobj
      | undef => simp [isObjRec] at hobj
      | bool b => simp [isObjRec] at hobj
      | num n => simp [isObjRec] at hobj
      | str s => simp [isObjRec] at hobj
      | arr ys => simp [isObjRec] at hobj

/-- The API-resource collection loop: on well-formed records it returns normally
with no finding, extending `apiIds` by exactly the set-collected ordId
strings of the records, and preserving the other id sets and the
no-duplicates invariant of `allOrdIds`. -/
theorem crossApisLoop_spec (xs : JList) :
    ∀ (st : CrossState) (acc : List String),
    xs.toList.all recBasicWF = true →
    st.apiIds = acc.map JVal.str →
    ∃ all2,
      crossApisLoop xs st =
        vpure { st with apiIds := (collectIdsFrom acc xs.toList).map JVal.str,
                        allOrdIds := all2 } ∧
      (svzNodup st.allOrdIds → svzNodup all2) := by
  induction xs using jlist_induction with
  | hnil =>
      intro st acc _ hv
      refine ⟨st.allOrdIds, ?_, fun h => h⟩
      unfold crossApisLoop
      cases st
      simp_all [JList.toList, collectIdsFrom, vpure]
  | hcons record rest ih =>
      intro st acc hwf hv
      rw [jlist_toList_cons, List.all_cons] at hwf
      simp only [Bool.and_eq_true] at hwf
      obtain ⟨hr, hrest⟩ := hwf
      unfold recBasicWF at hr
      simp only [Bool.and_eq_true] at hr
      obtain ⟨hobj, hstr⟩ := hr
      cases record with
      | obj fs =>
          unfold crossApisLoop
          rw [jsGetM_obj, vbind_vpure]
          unfold strOrAbsent at hstr
          cases hlk : fieldLookup (JVal.obj fs) "ordId" with
          | undef =>
              obtain ⟨all2, heq, hnd⟩ := ih st acc hrest hv
              refine ⟨all2, ?_, hnd⟩
              simp only [jlist_toList_cons, collectIdsFrom, hlk, truthy]
              simpa using heq
          | str s =>
              by_cases hs : s = ""
              · subst hs
                obtain ⟨all2, heq, hnd⟩ := ih st acc hrest hv
                refine ⟨all2, ?_, hnd⟩
                simp only [jlist_toList_cons, collectIdsFrom, hlk, truthy]
                simpa using heq
              · have htr : truthy (JVal.str s) = true := by simp [truthy, hs]
                rw [if_pos htr]
                obtain ⟨all2, heq, hnd⟩ :=
                  ih { st with apiIds := svzAdd st.apiIds (.str s),
                               allOrdIds := svzAdd st.allOrdIds (.str s) }
                    (addId acc s) hrest
                    (by simp only [hv]; exact svzAdd_map_str acc s)
                refine ⟨all2, ?_, fun h => hnd (svzAdd_nodup h _)⟩
                rw [heq]
                simp only [jlist_toList_cons, collectIdsFrom, hlk]
                rw [if_pos hs]
          | null => rw [hlk] at hstr; simp at hstr
          | bool b => rw [hlk] at hstr; simp at hstr
          | num n => rw [hlk] at hstr; simp at hstr
          | arr ys => rw [hlk] at hstr; simp at hstr
          | obj fs2 => rw [hlk] at hstr; simp at hstr
      | null => simp [isObjRec] at hobj
      | undef => simp [isObjRec] at hobj
      | bool b => simp [isObjRec] at hobj
      | num n => simp [isObjRec] at hobj
      | str s => simp [isObjRec] at hobj
      | arr ys => simp [isObjRec] at hobj

/-- The event-resource collection loop: on well-formed records it returns normally
with no finding, extending `eventIds` by exactly the set-collected ordId
strings of the records, and preserving the other id sets and the
no-duplicates invariant of `allOrdIds`. -/
theorem crossEventsLoop_spec (xs : JList) :
    ∀ (st : CrossState) (acc : List String),
    xs.toList.all recBasicWF = true →
    st.eventIds = acc.map JVal.str →
    ∃ all2,
      crossEventsLoop xs st =
        vpure { st with eventIds := (collectIdsFrom acc xs.toList).map JVal.str,
                        allOrdIds := all2 } ∧
      (svzNodup st.allOrdIds → svzNodup all2) := by
  induction xs using jlist_induction with
  | hnil =>
      intro st acc _ hv
      refine ⟨st.allOrdIds, ?_, fun h => h⟩
      unfold crossEventsLoop
      cases st
      simp_all [JList.toList, collectIdsFrom, vpure]
  | hcons record rest ih =>
      intro st acc hwf hv
      rw [jlist_toList_cons, List.all_cons] at hwf
      simp only [Bool.and_eq_true] at hwf
      obtain ⟨hr, hrest⟩ := hwf
      unfold recBasicWF at hr
      simp only [Bool.and_eq_true] at hr
      obtain ⟨hobj, hstr⟩ := hr
      cases record with
      | obj fs =>
          unfold crossEventsLoop
          rw [jsGetM_obj, vbind_vpure]
          unfold strOrAbsent at hstr
          cases hlk : fieldLookup (JVal.obj fs) "ordId" with
          | undef =>
              obtain ⟨all2, heq, hnd⟩ := ih st acc hrest hv
              refine ⟨all2, ?_, hnd⟩
              simp only [jlist_toList_cons, collectIdsFrom, hlk, truthy]
              simpa using heq
          | str s =>
              by_cases hs : s = ""
              · subst hs
                obtain ⟨all2, heq, hnd⟩ := ih st acc hrest hv
                refine ⟨all2, ?_, hnd⟩
                simp only [jlist_toList_cons, collectIdsFrom, hlk, truthy]
                simpa using heq
              · have htr : truthy (JVal.str s) = true := by simp [truthy, hs]
                rw [if_pos htr]
                obtain ⟨all2, heq, hnd⟩ :=
                  ih { st with eventIds := svzAdd st.eventIds (.str s),
                               allOrdIds := svzAdd st.allOrdIds (.str s) }
                    (addId acc s) hrest
                    (by simp only [hv]; exact svzAdd_map_str acc s)
                refine ⟨all2, ?_, fun h => hnd (svzAdd_nodup h _)⟩
                rw [heq]
                simp only [jlist_toList_cons, collectIdsFrom, hlk]
                rw [if_pos hs]
          | null => rw [hlk] at hstr; simp at hstr
          | bool b => rw [hlk] at hstr; simp at hstr
          | num n => rw [hlk] at hstr; simp at hstr
          | arr ys => rw [hlk] at hstr; simp at hstr
          | obj fs2 => rw [hlk] at hstr; simp at hstr
      | null => simp [isObjRec] at hobj
      | undef => simp [isObjRec] at hobj
      | bool b => simp [isObjRec] at hobj
      | num n => simp [isObjRec] at hobj
      | str s => simp [isObjRec] at hobj
      | arr ys => simp [isObjRec] at hobj

/-- The display id used inside cross-reference messages equals `displayId`
on records whose `ordId` is a string or absent. -/
theorem displayId_code_eq (fs : JFields)
    (h : strOrAbsent (.obj fs) "ordId" = true) :
    (if truthy (fieldLookup (.obj fs) "ordId") then
      jsToString (fieldLookup (.obj fs) "ordId") else "unknown") =
    displayId (.obj fs) := by
  unfold strOrAbsent at h
  unfold displayId
  cases hlk : fieldLookup (JVal.obj fs) "ordId" with
  | undef => simp [truthy]
  | str s =>
      by_cases hs : s = ""
      · subst hs; simp [truthy, jsToString]
      · simp [truthy, hs, jsToString]
  | null => rw [hlk] at h; simp at h
  | bool b => rw [hlk] at h; simp at h
  | num n => rw [hlk] at h; simp at h
  | arr ys => rw [hlk] at h; simp at h
  | obj fs2 => rw [hlk] at h; simp at h

/-- The products loop of the cross-reference phase: on well-formed records
it returns normally, emits exactly the specification's unknown-vendor
warnings against the vendor ids it was given, touches only `productIds` and
`allOrdIds`, and preserves the no-duplicates invariant. -/
theorem crossProductsLoop_spec (xs : JList) :
    ∀ (st : CrossState) (accV : List String),
    xs.toList.all recProductWF = true →
    st.vendorIds = accV.map JVal.str →
    ∃ all2 pids2,
      crossProductsLoop xs st =
        ⟨.ok { st with productIds := pids2, allOrdIds := all2 },
         [], prodWarns xs.toList accV, []⟩ ∧
      (svzNodup st.allOrdIds → svzNodup all2) := by
  induction xs using jlist_induction with
  | hnil =>
      intro st accV _ hv
      refine ⟨st.allOrdIds, st.productIds, ?_, fun h => h⟩
      unfold crossProductsLoop
      cases st
      simp_all [JList.toList, prodWarns, vpure]
  | hcons p rest ih =>
      intro st accV hwf hv
      rw [jlist_toList_cons, List.all_cons] at hwf
      simp only [Bool.and_eq_true] at hwf
      obtain ⟨hp, hrest⟩ := hwf
      unfold recProductWF at hp
      simp only [Bool.and_eq_true] at hp
      obtain ⟨hbasic, hven⟩ := hp
      unfold recBasicWF at hbasic
      simp only [Bool.and_eq_true] at hbasic
      obtain ⟨hobj, hord⟩ := hbasic
      cases p with
      | obj fs =>
          have hdisp := displayId_code_eq fs hord
          unfold crossProductsLoop
          rw [jsGetM_obj, vbind_vpure]
          -- name the state after the ordId step
          set st2 := (if truthy (fieldLookup (JVal.obj fs) "ordId") = true then
            { st with productIds := svzAdd st.productIds (fieldLookup (JVal.obj fs) "ordId"),
                      allOrdIds := svzAdd st.allOrdIds (fieldLookup (JVal.obj fs) "ordId") }
            else st) with hst2
          have hst2v : st2.vendorIds = accV.map JVal.str := by
            rw [hst2]; split <;> simp [hv]
          have hst2n : svzNodup st.allOrdIds → svzNodup st2.allOrdIds := by
            rw [hst2]; split
            · exact fun h => svzAdd_nodup h _
            · exact fun h => h
          have hst2p : ∀ p2 a2,
              ({ st2 with productIds := p2, allOrdIds := a2 } : CrossState) =
              { st with productIds := p2, allOrdIds := a2 } := by
            intro p2 a2
            rw [hst2]; split <;> simp
          rw [jsGetM_obj, vbind_vpure]
          obtain ⟨all2, pids2, heq, hnd⟩ := ih st2 accV hrest hst2v
          unfold strOrAbsent at hven
          cases hlv : fieldLookup (JVal.obj fs) "vendor" with
          | undef =>
              refine ⟨all2, pids2, ?_, fun h => hnd (hst2n h)⟩
              rw [if_neg (by simp [truthy])]
              rw [vbind_vpure, heq, hst2p]
              simp only [jlist_toList_cons, prodWarns, List.filterMap_cons, hlv]
          | str v =>
              by_cases hvn : v = ""
              · subst hvn
                refine ⟨all2, pids2, ?_, fun h => hnd (hst2n h)⟩
                rw [if_neg (by simp [truthy])]
                rw [vbind_vpure, heq, hst2p]
                simp only [jlist_toList_cons, prodWarns, List.filterMap_cons, hlv]
                simp [prodWarns]
              · by_cases hc : accV.contains v
                · have hcm : v ∈ accV := by simpa using hc
                  refine ⟨all2, pids2, ?_, fun h => hnd (hst2n h)⟩
                  rw [if_neg (by
                    rw [hst2v, svzMem_map_str]
                    simp [truthy, hvn, hcm])]
                  rw [vbind_vpure, heq, hst2p]
                  simp only [jlist_toList_cons, prodWarns, List.filterMap_cons, hlv]
                  simp [prodWarns, hvn]
                  rw [if_pos hcm]
                · have hcm : v ∉ accV := by simpa using hc
                  refine ⟨all2, pids2, ?_, fun h => hnd (hst2n h)⟩
                  rw [if_pos (by
                    rw [hst2v, svzMem_map_str]
                    simp [truthy, hvn, hcm])]
                  rw [vbind_ok (x := pushWarn _) rfl, heq, hst2p]
                  simp only [jlist_toList_cons, prodWarns, List.filterMap_cons, hlv]
                  rw [hdisp]
                  simp [prodWarns, hvn, pushWarn, jsToString]
                  rw [if_neg hcm]
          | null => rw [hlv] at hven; simp at hven
          | bool b => rw [hlv] at hven; simp at hven
          | num n => rw [hlv] at hven; simp at hven
          | arr ys => rw [hlv] at hven; simp at hven
          | obj fs2 => rw [hlv] at hven; simp at hven
      | null => simp [isObjRec] at hobj
      | undef => simp [isObjRec] at hobj
      | bool b => simp [isObjRec] at hobj
      | num n => simp [isObjRec] at hobj
      | str s => simp [isObjRec] at hobj
      | arr ys => simp [isObjRec] at hobj

/-- The bundle reference loop: on well-formed reference entries it returns
normally and emits exactly the specification's unresolved-reference errors
against the ids it was given. -/
theorem crossBundleRefsLoop_spec (accI : List String) (oid : JVal)
    (kindName : String) (xs : JList) :
    xs.toList.all refWF = true →
    crossBundleRefsLoop (accI.map JVal.str) oid kindName xs =
      ⟨.ok (), refErrsOf xs.toList accI
        (if truthy oid then jsToString oid else "unknown") kindName, [], []⟩ := by
  induction xs using jlist_induction with
  | hnil =>
      intro _
      unfold crossBundleRefsLoop
      simp [vpure, refErrsOf, JList.toList]
  | hcons ref rest ih =>
      intro hwf
      rw [jlist_toList_cons, List.all_cons] at hwf
      simp only [Bool.and_eq_true] at hwf
      obtain ⟨href, hrest⟩ := hwf
      have hstep := ih hrest
      unfold crossBundleRefsLoop
      cases ref with
      | str s =>
          rw [show refIdOf (JVal.str s) = vpure (JVal.str s) from rfl, vbind_vpure]
          by_cases hs : s = ""
          · subst hs
            rw [if_neg (by simp [truthy])]
            rw [vbind_vpure, hstep]
            simp [jlist_toList_cons, refErrsOf, refIdStr]
          · by_cases hc : s ∈ accI
            · rw [if_neg (by rw [svzMem_map_str]; simp [truthy, hs, hc])]
              rw [vbind_vpure, hstep]
              simp only [jlist_toList_cons, refErrsOf, List.filterMap_cons, refIdStr]
              rw [if_pos hs]
              simp [hc, refErrsOf]
            · rw [if_pos (by rw [svzMem_map_str]; simp [truthy, hs, hc])]
              rw [vbind_ok (x := pushErr _) rfl, hstep]
              simp only [jlist_toList_cons, refErrsOf, List.filterMap_cons, refIdStr]
              rw [if_pos hs]
              simp [hc, refErrsOf, pushErr, jsToString]
      | obj fs =>
          rw [show refIdOf (JVal.obj fs) = jsGetM (JVal.obj fs) "ordId" from rfl,
            jsGetM_obj, vbind_vpure]
          unfold refWF strOrAbsent at href
          cases hlk : fieldLookup (JVal.obj fs) "ordId" with
          | undef =>
              have hlk2 : (JFields.lookup fs "ordId").getD JVal.undef = JVal.undef := hlk
              have hrid : refIdStr (JVal.obj fs) = none := by
                cases hl2 : JFields.lookup fs "ordId" with
                | none => unfold refIdStr; simp [hl2]
                | some w =>
                    rw [hl2] at hlk2
                    simp at hlk2
                    unfold refIdStr
                    simp [hl2, hlk2]
              rw [if_neg (by simp [truthy])]
              rw [vbind_vpure, hstep]
              simp [jlist_toList_cons, refErrsOf, List.filterMap_cons, hrid]
          | str s =>
              have hlk2 : (JFields.lookup fs "ordId").getD JVal.undef = JVal.str s := hlk
              have hrid : refIdStr (JVal.obj fs) =
                  (if s ≠ "" then some s else none) := by
                cases hl2 : JFields.lookup fs "ordId" with
                | none => rw [hl2] at hlk2; simp at hlk2
                | some w =>
                    rw [hl2] at hlk2
                    simp at hlk2
                    unfold refIdStr
                    simp [hl2, hlk2]
              by_cases hs : s = ""
              · subst hs
                rw [if_neg (by simp [truthy])]
                rw [vbind_vpure, hstep]
                simp only [jlist_toList_cons, refErrsOf, List.filterMap_cons, hrid]
                simp [refErrsOf]
              · by_cases hc : s ∈ accI
                · rw [if_neg (by rw [svzMem_map_str]; simp [truthy, hs, hc])]
                  rw [vbind_vpure, hstep]
                  simp only [jlist_toList_cons, refErrsOf, List.filterMap_cons, hrid]
                  rw [if_pos hs]
                  simp [hc, refErrsOf]
                · rw [if_pos (by rw [svzMem_map_str]; simp [truthy, hs, hc])]
                  rw [vbind_ok (x := pushErr _) rfl, hstep]
                  simp only [jlist_toList_cons, refErrsOf, List.filterMap_cons, hrid]
                  rw [if_pos hs]
                  simp [hc, refErrsOf, pushErr, jsToString]
          | null => rw [hlk] at href; simp at href
          | bool b => rw [hlk] at href; simp at href
          | num n => rw [hlk] at href; simp at href
          | arr ys => rw [hlk] at href; simp at href
          | obj fs2 => rw [hlk] at href; simp at href
      | null => simp [refWF] at href
      | undef => simp [refWF] at href
      | bool b => simp [refWF] at href
      | num n => simp [refWF] at href
      | arr ys => simp [refWF] at href

/-- The consumption bundle loop of the cross-reference phase: on well-formed
bundles it returns normally, emits exactly the specification's
unresolved-reference errors against the API and event ids it was given,
touches only `bundleIds` and `allOrdIds`, and preserves the no-duplicates
invariant. -/
theorem crossBundlesLoop_spec (xs : JList) :
    ∀ (st : CrossState) (accA accE : List String),
    xs.toList.all recBundleWF = true →
    st.apiIds = accA.map JVal.str →
    st.eventIds = accE.map JVal.str →
    ∃ all2 bids2,
      crossBundlesLoop xs st =
        ⟨.ok { st with bundleIds := bids2, allOrdIds := all2 },
         bundlesErrs xs.toList accA accE, [], []⟩ ∧
      (svzNodup st.allOrdIds → svzNodup all2) := by
  induction xs using jlist_induction with
  | hnil =>
      intro st accA accE _ _ _
      refine ⟨st.allOrdIds, st.bundleIds, ?_, fun h => h⟩
      unfold crossBundlesLoop
      cases st
      simp_all [JList.toList, bundlesErrs, vpure]
  | hcons b rest ih =>
      intro st accA accE hwf hA hE
      rw [jlist_toList_cons, List.all_cons] at hwf
      simp only [Bool.and_eq_true] at hwf
      obtain ⟨hb, hrest⟩ := hwf
      unfold recBundleWF at hb
      simp only [Bool.and_eq_true] at hb
      obtain ⟨⟨hbasic, hapi⟩, hevt⟩ := hb
      unfold recBasicWF at hbasic
      simp only [Bool.and_eq_true] at hbasic
      obtain ⟨hobj, hord⟩ := hbasic
      cases b with
      | obj fs =>
          have hdisp := displayId_code_eq fs hord
          unfold crossBundlesLoop
          rw [jsGetM_obj, vbind_vpure]
          set st2 := (if truthy (fieldLookup (JVal.obj fs) "ordId") = true then
            { st with bundleIds := svzAdd st.bundleIds (fieldLookup (JVal.obj fs) "ordId"),
                      allOrdIds := svzAdd st.allOrdIds (fieldLookup (JVal.obj fs) "ordId") }
            else st) with hst2
          have hst2A : st2.apiIds = accA.map JVal.str := by
            rw [hst2]; split <;> simp [hA]
          have hst2E : st2.eventIds = accE.map JVal.str := by
            rw [hst2]; split <;> simp [hE]
          have hst2n : svzNodup st.allOrdIds → svzNodup st2.allOrdIds := by
            rw [hst2]; split
            · exact fun h => svzAdd_nodup h _
            · exact fun h => h
          have hst2p : ∀ b2 a2,
              ({ st2 with bundleIds := b2, allOrdIds := a2 } : CrossState) =
              { st with bundleIds := b2, allOrdIds := a2 } := by
            intro b2 a2
            rw [hst2]; split <;> simp
          rw [jsGetM_obj, vbind_vpure]
          obtain ⟨all2, bids2, heq, hnd⟩ := ih st2 accA accE hrest hst2A hst2E
          -- the api reference step
          have hApiStep :
              (if truthy (fieldLookup (JVal.obj fs) "apiResources") = true then
                match fieldLookup (JVal.obj fs) "apiResources" with
                | JVal.arr ys =>
                    crossBundleRefsLoop st2.apiIds (fieldLookup (JVal.obj fs) "ordId") "API" ys
                | _ => throwJs "bundle.apiResources.forEach is not a function"
              else vpure ()) =
              ⟨.ok (), refErrsOf (collList (JVal.obj fs) "apiResources") accA
                (if truthy (fieldLookup (JVal.obj fs) "ordId") = true then
                  jsToString (fieldLookup (JVal.obj fs) "ordId") else "unknown") "API",
                [], []⟩ := by
            simp only [refListWF] at hapi
            by_cases ht : truthy (fieldLookup (JVal.obj fs) "apiResources") = true
            · rw [if_pos ht]
              rw [if_pos ht] at hapi
              cases har : fieldLookup (JVal.obj fs) "apiResources" with
              | arr ys =>
                  rw [har] at hapi
                  show crossBundleRefsLoop st2.apiIds
                    (fieldLookup (JVal.obj fs) "ordId") "API" ys = _
                  rw [hst2A]
                  rw [crossBundleRefsLoop_spec accA _ "API" ys hapi]
                  simp [collList, har]
              | null => rw [har] at ht; simp [truthy] at ht
              | undef => rw [har] at ht; simp [truthy] at ht
              | bool b2 => rw [har] at hapi; simp at hapi
              | num n2 => rw [har] at hapi; simp at hapi
              | str s2 => rw [har] at hapi; simp at hapi
              | obj fs2 => rw [har] at hapi; simp at hapi
            · rw [if_neg ht]
              have hcoll : collList (JVal.obj fs) "apiResources" = [] := by
                unfold collList
                cases har : fieldLookup (JVal.obj fs) "apiResources" with
                | arr ys => rw [har] at ht; simp [truthy] at ht
                | null => rfl
                | undef => rfl
                | bool b2 => rfl
                | num n2 => rfl
                | str s2 => rfl
                | obj fs2 => rfl
              rw [hcoll]
              simp [refErrsOf, vpure]
          have hEvtStep :
              (if truthy (fieldLookup (JVal.obj fs) "eventResources") = true then
                match fieldLookup (JVal.obj fs) "eventResources" with
                | JVal.arr ys =>
                    crossBundleRefsLoop st2.eventIds (fieldLookup (JVal.obj fs) "ordId") "event" ys
                | _ => throwJs "bundle.eventResources.forEach is not a function"
              else vpure ()) =
              ⟨.ok (), refErrsOf (collList (JVal.obj fs) "eventResources") accE
                (if truthy (fieldLookup (JVal.obj fs) "ordId") = true then
                  jsToString (fieldLookup (JVal.obj fs) "ordId") else "unknown") "event",
                [], []⟩ := by
            simp only [refListWF] at hevt
            by_cases ht : truthy (fieldLookup (JVal.obj fs) "eventResources") = true
            · rw [if_pos ht]
              rw [if_pos ht] at hevt
              cases har : fieldLookup (JVal.obj fs) "eventResources" with
              | arr ys =>
                  rw [har] at hevt
                  show crossBundleRefsLoop st2.eventIds
                    (fieldLookup (JVal.obj fs) "ordId") "event" ys = _
                  rw [hst2E]
                  rw [crossBundleRefsLoop_spec accE _ "event" ys hevt]
                  simp [collList, har]
              | null => rw [har] at ht; simp [truthy] at ht
              | undef => rw [har] at ht; simp [truthy] at ht
              | bool b2 => rw [har] at hevt; simp at hevt
              | num n2 => rw [har] at hevt; simp at hevt
              | str s2 => rw [har] at hevt; simp at hevt
              | obj fs2 => rw [har] at hevt; simp at hevt
            · rw [if_neg ht]
              have hcoll : collList (JVal.obj fs) "eventResources" = [] := by
                unfold collList
                cases har : fieldLookup (JVal.obj fs) "eventResources" with
                | arr ys => rw [har] at ht; simp [truthy] at ht
                | null => rfl
                | undef => rfl
                | bool b2 => rfl
                | num n2 => rfl
                | str s2 => rfl
                | obj fs2 => rfl
              rw [hcoll]
              simp [refErrsOf, vpure]
          rw [hApiStep]
          rw [vbind_ok (x := (⟨.ok (), _, [], []⟩ : VOut Unit)) rfl]
          rw [jsGetM_obj, vbind_vpure, hEvtStep]
          rw [vbind_ok (x := (⟨.ok (), _, [], []⟩ : VOut Unit)) rfl]
          rw [heq, hst2p]
          refine ⟨all2, bids2, ?_, fun h => hnd (hst2n h)⟩
          simp only [jlist_toList_cons, bundlesErrs, List.flatMap_cons,
            bundleRefErrsSpec, hdisp]
          simp [bundlesErrs, List.append_assoc]
      | null => simp [isObjRec] at hobj
      | undef => simp [isObjRec] at hobj
      | bool b2 => simp [isObjRec] at hobj
      | num n2 => simp [isObjRec] at hobj
      | str s2 => simp [isObjRec] at hobj
      | arr ys => simp [isObjRec] at hobj

/-- A falsy collection field contributes no records. -/
theorem collList_empty_of_not_truthy (fs : JFields) (name : String)
    (ht : ¬ truthy (fieldLookup (JVal.obj fs) name) = true) :
    collList (JVal.obj fs) name = [] := by
  unfold collList
  cases har : fieldLookup (JVal.obj fs) name with
  | arr ys => rw [har] at ht; simp [truthy] at ht
  | null => rfl
  | undef => rfl
  | bool b => rfl
  | num n => rfl
  | str s => rfl
  | obj fs2 => rfl

/-- The vendors step of `validateCrossReferences`. -/
theorem crossColl_vendors (fs : JFields) (st : CrossState) (acc : List String)
    (lbl : String)
    (hwf : collWF (.obj fs) "vendors" recBasicWF = true)
    (hv : st.vendorIds = acc.map JVal.str) :
    ∃ all2,
      crossColl crossVendorsLoop lbl (fieldLookup (.obj fs) "vendors") st =
        vpure { st with
          vendorIds := (collectIdsFrom acc (collList (.obj fs) "vendors")).map JVal.str,
          allOrdIds := all2 } ∧
      (svzNodup st.allOrdIds → svzNodup all2) := by
  simp only [collWF] at hwf
  unfold crossColl
  by_cases ht : truthy (fieldLookup (JVal.obj fs) "vendors") = true
  · rw [if_pos ht]
    rw [if_pos ht] at hwf
    cases har : fieldLookup (JVal.obj fs) "vendors" with
    | arr ys =>
        rw [har] at hwf
        have hcoll : collList (JVal.obj fs) "vendors" = ys.toList := by
          unfold collList; rw [har]
        obtain ⟨all2, heq, hnd⟩ := crossVendorsLoop_spec ys st acc hwf hv
        refine ⟨all2, ?_, hnd⟩
        rw [hcoll]
        show crossVendorsLoop ys st = _
        exact heq
    | null => rw [har] at ht; simp [truthy] at ht
    | undef => rw [har] at ht; simp [truthy] at ht
    | bool b => rw [har] at hwf; simp at hwf
    | num n => rw [har] at hwf; simp at hwf
    | str s => rw [har] at hwf; simp at hwf
    | obj fs2 => rw [har] at hwf; simp at hwf
  · rw [if_neg ht]
    refine ⟨st.allOrdIds, ?_, fun hh => hh⟩
    rw [collList_empty_of_not_truthy fs "vendors" ht]
    simp only [collectIdsFrom]
    rw [← hv]

/-- The capabilities step of `validateCrossReferences`. -/
theorem crossColl_capabilities (fs : JFields) (st : CrossState) (acc : List String)
    (lbl : String)
    (hwf : collWF (.obj fs) "capabilities" recBasicWF = true)
    (hv : st.capabilityIds = acc.map JVal.str) :
    ∃ all2,
      crossColl crossCapabilitiesLoop lbl (fieldLookup (.obj fs) "capabilities") st =
        vpure { st with
          capabilityIds := (collectIdsFrom acc (collList (.obj fs) "capabilities")).map JVal.str,
          allOrdIds := all2 } ∧
      (svzNodup st.allOrdIds → svzNodup all2) := by
  simp only [collWF] at hwf
  unfold crossColl
  by_cases ht : truthy (fieldLookup (JVal.obj fs) "capabilities") = true
  · rw [if_pos ht]
    rw [if_pos ht] at hwf
    cases har : fieldLookup (JVal.obj fs) "capabilities" with
    | arr ys =>
        rw [har] at hwf
        have hcoll : collList (JVal.obj fs) "capabilities" = ys.toList := by
          unfold collList; rw [har]
        obtain ⟨all2, heq, hnd⟩ := crossCapabilitiesLoop_spec ys st acc hwf hv
        refine ⟨all2, ?_, hnd⟩
        rw [hcoll]
        show crossCapabilitiesLoop ys st = _
        exact heq
    | null => rw [har] at ht; simp [truthy] at ht
    | undef => rw [har] at ht; simp [truthy] at ht
    | bool b => rw [har] at hwf; simp at hwf
    | num n => rw [har] at hwf; simp at hwf
    | str s => rw [har] at hwf; simp at hwf
    | obj fs2 => rw [har] at hwf; simp at hwf
  · rw [if_neg ht]
    refine ⟨st.allOrdIds, ?_, fun hh => hh⟩
    rw [collList_empty_of_not_truthy fs "capabilities" ht]
    simp only [collectIdsFrom]
    rw [← hv]

/-- The apiResources step of `validateCrossReferences`. -/
theorem crossColl_apiResources (fs : JFields) (st : CrossState) (acc : List String)
    (lbl : String)
    (hwf : collWF (.obj fs) "apiResources" recBasicWF = true)
    (hv : st.apiIds = acc.map JVal.str) :
    ∃ all2,
      crossColl crossApisLoop lbl (fieldLookup (.obj fs) "apiResources") st =
        vpure { st with
          apiIds := (collectIdsFrom acc (collList (.obj fs) "apiResources")).map JVal.str,
          allOrdIds := all2 } ∧
      (svzNodup st.allOrdIds → svzNodup all2) := by
  simp only [collWF] at hwf
  unfold crossColl
  by_cases ht : truthy (fieldLookup (JVal.obj fs) "apiResources") = true
  · rw [if_pos ht]
    rw [if_pos ht] at hwf
    cases har : fieldLookup (JVal.obj fs) "apiResources" with
    | arr ys =>
        rw [har] at hwf
        have hcoll : collList (JVal.obj fs) "apiResources" = ys.toList := by
          unfold collList; rw [har]
        obtain ⟨all2, heq, hnd⟩ := crossApisLoop_spec ys st acc hwf hv
        refine ⟨all2, ?_, hnd⟩
        rw [hcoll]
        show crossApisLoop ys st = _
        exact heq
    | null => rw [har] at ht; simp [truthy] at ht
    | undef => rw [har] at ht; simp [truthy] at ht
    | bool b => rw [har] at hwf; simp at hwf
    | num n => rw [har] at hwf; simp at hwf
    | str s => rw [har] at hwf; simp at hwf
    | obj fs2 => rw [har] at hwf; simp at hwf
  · rw [if_neg ht]
    refine ⟨st.allOrdIds, ?_, fun hh => hh⟩
    rw [collList_empty_of_not_truthy fs "apiResources" ht]
    simp only [collectIdsFrom]
    rw [← hv]

/-- The eventResources step of `validateCrossReferences`. -/
theorem crossColl_eventResources (fs : JFields) (st : CrossState) (acc : List String)
    (lbl : String)
    (hwf : collWF (.obj fs) "eventResources" recBasicWF = true)
    (hv : st.eventIds = acc.map JVal.str) :
    ∃ all2,
      crossColl crossEventsLoop lbl (fieldLookup (.obj fs) "eventResources") st =
        vpure { st with
          eventIds := (collectIdsFrom acc (collList (.obj fs) "eventResources")).map JVal.str,
          allOrdIds := all2 } ∧
      (svzNodup st.allOrdIds → svzNodup all2) := by
  simp only [collWF] at hwf
  unfold crossColl
  by_cases ht : truthy (fieldLookup (JVal.obj fs) "eventResources") = true
  · rw [if_pos ht]
    rw [if_pos ht] at hwf
    cases har : fieldLookup (JVal.obj fs) "eventResources" with
    | arr ys =>
        rw [har] at hwf
        have hcoll : collList (JVal.obj fs) "eventResources" = ys.toList := by
          unfold collList; rw [har]
        obtain ⟨all2, heq, hnd⟩ := crossEventsLoop_spec ys st acc hwf hv
        refine ⟨all2, ?_, hnd⟩
        rw [hcoll]
        show crossEventsLoop ys st = _
        exact heq
    | null => rw [har] at ht; simp [truthy] at ht
    | undef => rw [har] at ht; simp [truthy] at ht
    | bool b => rw [har] at hwf; simp at hwf
    | num n => rw [har] at hwf; simp at hwf
    | str s => rw [har] at hwf; simp at hwf
    | obj fs2 => rw [har] at hwf; simp at hwf
  · rw [if_neg ht]
    refine ⟨st.allOrdIds, ?_, fun hh => hh⟩
    rw [collList_empty_of_not_truthy fs "eventResources" ht]
    simp only [collectIdsFrom]
    rw [← hv]

/-- The products step of `validateCrossReferences`. -/
theorem crossColl_products (fs : JFields) (st : CrossState)
    (accV : List String) (lbl : String)
    (hwf : collWF (.obj fs) "products" recProductWF = true)
    (hv : st.vendorIds = accV.map JVal.str) :
    ∃ all2 pids2,
      crossColl crossProductsLoop lbl (fieldLookup (.obj fs) "products") st =
        ⟨.ok { st with productIds := pids2, allOrdIds := all2 },
         [], prodWarns (collList (.obj fs) "products") accV, []⟩ ∧
      (svzNodup st.allOrdIds → svzNodup all2) := by
  simp only [collWF] at hwf
  unfold crossColl
  by_cases ht : truthy (fieldLookup (JVal.obj fs) "products") = true
  · rw [if_pos ht]
    rw [if_pos ht] at hwf
    cases har : fieldLookup (JVal.obj fs) "products" with
    | arr ys =>
        rw [har] at hwf
        have hcoll : collList (JVal.obj fs) "products" = ys.toList := by
          unfold collList; rw [har]
        obtain ⟨all2, pids2, heq, hnd⟩ := crossProductsLoop_spec ys st accV hwf hv
        refine ⟨all2, pids2, ?_, hnd⟩
        rw [hcoll]
        show crossProductsLoop ys st = _
        exact heq
    | null => rw [har] at ht; simp [truthy] at ht
    | undef => rw [har] at ht; simp [truthy] at ht
    | bool b => rw [har] at hwf; simp at hwf
    | num n => rw [har] at hwf; simp at hwf
    | str s => rw [har] at hwf; simp at hwf
    | obj fs2 => rw [har] at hwf; simp at hwf
  · rw [if_neg ht]
    refine ⟨st.allOrdIds, st.productIds, ?_, fun hh => hh⟩
    rw [collList_empty_of_not_truthy fs "products" ht]
    cases st
    simp [vpure, prodWarns]

/-- The consumption-bundle step of `validateCrossReferences`. -/
theorem crossColl_bundles (fs : JFields) (st : CrossState)
    (accA accE : List String) (lbl : String)
    (hwf : collWF (.obj fs) "consumptionBundles" recBundleWF = true)
    (hA : st.apiIds = accA.map JVal.str)
    (hE : st.eventIds = accE.map JVal.str) :
    ∃ all2 bids2,
      crossColl crossBundlesLoop lbl (fieldLookup (.obj fs) "consumptionBundles") st =
        ⟨.ok { st with bundleIds := bids2, allOrdIds := all2 },
         bundlesErrs (collList (.obj fs) "consumptionBundles") accA accE, [], []⟩ ∧
      (svzNodup st.allOrdIds → svzNodup all2) := by
  simp only [collWF] at hwf
  unfold crossColl
  by_cases ht : truthy (fieldLookup (JVal.obj fs) "consumptionBundles") = true
  · rw [if_pos ht]
    rw [if_pos ht] at hwf
    cases har : fieldLookup (JVal.obj fs) "consumptionBundles" with
    | arr ys =>
        rw [har] at hwf
        have hcoll : collList (JVal.obj fs) "consumptionBundles" = ys.toList := by
          unfold collList; rw [har]
        obtain ⟨all2, bids2, heq, hnd⟩ := crossBundlesLoop_spec ys st accA accE hwf hA hE
        refine ⟨all2, bids2, ?_, hnd⟩
        rw [hcoll]
        show crossBundlesLoop ys st = _
        exact heq
    | null => rw [har] at ht; simp [truthy] at ht
    | undef => rw [har] at ht; simp [truthy] at ht
    | bool b => rw [har] at hwf; simp at hwf
    | num n => rw [har] at hwf; simp at hwf
    | str s => rw [har] at hwf; simp at hwf
    | obj fs2 => rw [har] at hwf; simp at hwf
  · rw [if_neg ht]
    refine ⟨st.allOrdIds, st.bundleIds, ?_, fun hh => hh⟩
    rw [collList_empty_of_not_truthy fs "consumptionBundles" ht]
    cases st
    simp [vpure, bundlesErrs]

/-- Binding a completed normal step accumulates its findings. -/
theorem vbind_mk_ok {α β : Type} (a : α) (e w s : List Msg) (f : α → VOut β) :
    vbind ⟨.ok a, e, w, s⟩ f =
      ⟨(f a).res, e ++ (f a).errs, w ++ (f a).warns, s ++ (f a).suggs⟩ := rfl


/-- C5, amended.  On every well-formed document the cross-reference phase
returns normally and produces exactly: one warning (mentioning "unknown
vendor") per product whose vendor reference is not declared by the `vendors`
collection, and one error per bundle reference not declared by the
`apiResources` / `eventResources` collection respectively — resolution is
per-collection, never against all ids declared anywhere, and the dead
duplicate scan contributes nothing. -/
theorem c5_crossref_per_collection (m : JVal) (h : wfDoc m = true) :
    validateCrossReferences m =
      ⟨.ok (), bundleRefErrorsSpec m, vendorRefWarningsSpec m, []⟩ := by
  unfold wfDoc at h
  simp only [Bool.and_eq_true] at h
  obtain ⟨⟨⟨⟨⟨⟨hobj, hV⟩, hP⟩, hC⟩, hA⟩, hE⟩, hB⟩ := h
  cases m with
  | obj fs =>
      unfold validateCrossReferences
      simp only [vout_bind_eq]
      rw [jsGetM_obj, vbind_vpure]
      obtain ⟨a1, h1, hn1⟩ :=
        crossColl_vendors fs ⟨[], [], [], [], [], [], []⟩ [] "metadata.vendors" hV rfl
      rw [h1, vbind_vpure]
      dsimp only
      rw [jsGetM_obj, vbind_vpure]
      obtain ⟨a2, p2, h2, hn2⟩ :=
        crossColl_products fs
          ⟨a1, (collectIdsFrom [] (collList (JVal.obj fs) "vendors")).map JVal.str,
           [], [], [], [], []⟩
          (collectIdsFrom [] (collList (JVal.obj fs) "vendors"))
          "metadata.products" hP rfl
      rw [h2, vbind_mk_ok]
      dsimp only
      rw [jsGetM_obj, vbind_vpure]
      obtain ⟨a3, h3, hn3⟩ :=
        crossColl_capabilities fs
          ⟨a2, (collectIdsFrom [] (collList (JVal.obj fs) "vendors")).map JVal.str,
           p2, [], [], [], []⟩
          [] "metadata.capabilities" hC rfl
      rw [h3, vbind_vpure]
      dsimp only
      rw [jsGetM_obj, vbind_vpure]
      obtain ⟨a4, h4, hn4⟩ :=
        crossColl_apiResources fs
          ⟨a3, (collectIdsFrom [] (collList (JVal.obj fs) "vendors")).map JVal.str,
           p2, (collectIdsFrom [] (collList (JVal.obj fs) "capabilities")).map JVal.str,
           [], [], []⟩
          [] "metadata.apiResources" hA rfl
      rw [h4, vbind_vpure]
      dsimp only
      rw [jsGetM_obj, vbind_vpure]
      obtain ⟨a5, h5, hn5⟩ :=
        crossColl_eventResources fs
          ⟨a4, (collectIdsFrom [] (collList (JVal.obj fs) "vendors")).map JVal.str,
           p2, (collectIdsFrom [] (collList (JVal.obj fs) "capabilities")).map JVal.str,
           (collectIdsFrom [] (collList (JVal.obj fs) "apiResources")).map JVal.str,
           [], []⟩
          [] "metadata.eventResources" hE rfl
      rw [h5, vbind_vpure]
      dsimp only
      rw [jsGetM_obj, vbind_vpure]
      obtain ⟨a6, b6, h6, hn6⟩ :=
        crossColl_bundles fs
          ⟨a5, (collectIdsFrom [] (collList (JVal.obj fs) "vendors")).map JVal.str,
           p2, (collectIdsFrom [] (collList (JVal.obj fs) "capabilities")).map JVal.str,
           (collectIdsFrom [] (collList (JVal.obj fs) "apiResources")).map JVal.str,
           (collectIdsFrom [] (collList (JVal.obj fs) "eventResources")).map JVal.str,
           []⟩
          (collectIdsFrom [] (collList (JVal.obj fs) "apiResources"))
          (collectIdsFrom [] (collList (JVal.obj fs) "eventResources"))
          "metadata.consumptionBundles" hB rfl rfl
      rw [h6, vbind_mk_ok]
      dsimp only
      have hnd : svzNodup a6 :=
        hn6 (hn5 (hn4 (hn3 (hn2 (hn1 List.Pairwise.nil)))))
      rw [dupLoop_nodup a6 hnd [] (fun x _ => rfl)]
      simp [vpure, bundleRefErrorsSpec, vendorRefWarningsSpec, declaredIn]
  | null => simp [isObjRec] at hobj
  | undef => simp [isObjRec] at hobj
  | bool b => simp [isObjRec] at hobj
  | num n => simp [isObjRec] at hobj
  | str s => simp [isObjRec] at hobj
  | arr ys => simp [isObjRec] at hobj

/-- C5 witness: the concrete document whose product references its own
declared product ordId as vendor is well-formed, and the theorem applies to
it. -/
theorem c5_crossref_witness :
    wfDoc selfVendorDoc = true ∧
    validateCrossReferences selfVendorDoc =
      ⟨.ok (), bundleRefErrorsSpec selfVendorDoc,
       vendorRefWarningsSpec selfVendorDoc, []⟩ :=
  ⟨by decide, c5_crossref_per_collection selfVendorDoc (by decide)⟩
